import Mathlib

/-!
Verification of the Feiyan memory scan/filter backend (src/backend/src/api.rs)
against its natural-language specification.

Shallow embedding conventions:
* Bytes are naturals; reads mask with `% 256` (process memory yields `u8`).
* The OS gateway (`read_memory_native`) is a parameter: a success predicate
  per (address, size) plus the byte at each address.  `vec![0; n]` buffers
  that are only filled for the first `size` bytes keep their zero tail.
* The `regex` crate is external; it is a parameter with `compile`,
  `is_match` and an iterator of (start, end) capture spans.
* `usize` subtraction that can underflow (a Rust debug-mode panic) and the
  `try_into().unwrap()` / `read_f32` width panics are modelled by explicit
  `panicked` outcomes.
* Rust `%` with a zero divisor panics; theorems about alignment carry a
  positive-alignment hypothesis and `Nat.mod` is used in the model.
* The global store (GLOBAL_POSITIONS) is threaded sequentially; all store
  mutation in the source happens under one write lock, so a sequential
  interleaving is a faithful linearisation, and the properties proved here
  (counts, alignment, response contents) do not depend on chunk order.
-/

namespace Feiyan

set_option maxRecDepth 8000

/-- MAX_RESULTS from api.rs line 69. -/
def MAX_RESULTS : Nat := 100000

/-! ## Hex encoding and decoding (the `hex` crate: `hex::encode`, `hex::decode`) -/

/-- Value of one hex digit, accepting both cases (`hex::decode`). -/
def hexDigitVal (c : Char) : Option Nat :=
  let n := c.toNat
  if 48 ≤ n ∧ n ≤ 57 then some (n - 48)
  else if 97 ≤ n ∧ n ≤ 102 then some (n - 87)
  else if 65 ≤ n ∧ n ≤ 70 then some (n - 55)
  else none

/-- Decode a list of hex digits, two per byte; odd length or a non-digit fails. -/
def hexPairs : List Char → Option (List Nat)
  | [] => some []
  | [_] => none
  | c1 :: c2 :: rest =>
    match hexDigitVal c1, hexDigitVal c2, hexPairs rest with
    | some hi, some lo, some tl => some ((16 * hi + lo) :: tl)
    | _, _, _ => none

/-- `hex::decode` on a string. -/
def hexDecode (s : String) : Option (List Nat) := hexPairs s.toList

/-- Lowercase hex digit for a nibble (`hex::encode` emits lowercase). -/
def hexDigitChar (n : Nat) : Char :=
  if n < 10 then Char.ofNat (48 + n) else Char.ofNat (87 + n)

/-- Character list of `hex::encode`. -/
def hexEncodeChars : List Nat → List Char
  | [] => []
  | b :: bs => hexDigitChar (b / 16 % 16) :: hexDigitChar (b % 16) :: hexEncodeChars bs

/-- `hex::encode`. -/
def hexEncode (bs : List Nat) : String := String.mk (hexEncodeChars bs)

/-! ## Little-endian byte conversions (the `byteorder` crate and `from_le_bytes`) -/

/-- Little-endian bytes to an unsigned value. -/
def leToNat : List Nat → Nat
  | [] => 0
  | b :: bs => b + 256 * leToNat bs

/-- Unsigned value to `w` little-endian bytes (`to_le_bytes` after a cast to the
`w`-byte unsigned type). -/
def natToLe (w n : Nat) : List Nat := (List.range w).map (fun i => n / 256 ^ i % 256)

/-- `iN::from_le_bytes`: two's-complement reading of `w` bytes. -/
def leToInt (w : Nat) (bs : List Nat) : Int :=
  let n := leToNat bs
  if n < 2 ^ (8 * w - 1) then (n : Int) else (n : Int) - 2 ^ (8 * w)

/-- `u16::from_ne_bytes` over `chunks_exact(2)` (little-endian target); a
trailing odd byte is dropped. -/
def toU16List : List Nat → List Nat
  | b0 :: b1 :: rest => (b0 + 256 * b1) :: toU16List rest
  | _ => []

/-- `u32::to_le_bytes` (the value is taken mod 2^32 as by an `as u32` cast). -/
def u32le (n : Nat) : List Nat :=
  [n % 256, n / 256 % 256, n / 65536 % 256, n / 16777216 % 256]

/-! ## UTF-8 validity (`str::from_utf8`) -/

/-- A UTF-8 continuation byte. -/
def isCont (b : Nat) : Bool := decide (128 ≤ b ∧ b ≤ 191)

/-- Standard UTF-8 validity (as checked by `str::from_utf8`): rejects overlong
forms, surrogates and values beyond U+10FFFF. -/
def validUtf8 : List Nat → Bool
  | [] => true
  | b :: rest =>
    if b ≤ 127 then validUtf8 rest
    else if 194 ≤ b ∧ b ≤ 223 then
      match rest with
      | c1 :: r => isCont c1 && validUtf8 r
      | [] => false
    else if b = 224 then
      match rest with
      | c1 :: c2 :: r => decide (160 ≤ c1 ∧ c1 ≤ 191) && isCont c2 && validUtf8 r
      | _ => false
    else if (225 ≤ b ∧ b ≤ 236) ∨ b = 238 ∨ b = 239 then
      match rest with
      | c1 :: c2 :: r => isCont c1 && isCont c2 && validUtf8 r
      | _ => false
    else if b = 237 then
      match rest with
      | c1 :: c2 :: r => decide (128 ≤ c1 ∧ c1 ≤ 159) && isCont c2 && validUtf8 r
      | _ => false
    else if b = 240 then
      match rest with
      | c1 :: c2 :: c3 :: r => decide (144 ≤ c1 ∧ c1 ≤ 191) && isCont c2 && isCont c3 && validUtf8 r
      | _ => false
    else if 241 ≤ b ∧ b ≤ 243 then
      match rest with
      | c1 :: c2 :: c3 :: r => isCont c1 && isCont c2 && isCont c3 && validUtf8 r
      | _ => false
    else if b = 244 then
      match rest with
      | c1 :: c2 :: c3 :: r => decide (128 ≤ c1 ∧ c1 ≤ 143) && isCont c2 && isCont c3 && validUtf8 r
      | _ => false
    else false

/-- `str::from_utf8(bs).unwrap_or("")` viewed as the byte sequence it compares
as: the bytes themselves when valid, the empty string's bytes otherwise
(Rust `str` equality is byte equality). -/
def utf8OrEmpty (bs : List Nat) : List Nat := if validUtf8 bs then bs else []

/-! ## IEEE-754 comparison on raw bit patterns (`f32`/`f64` `==`, `<`, `>`) -/

/-- NaN test on `f32` bits. -/
def f32IsNaN (bits : Nat) : Bool := decide (bits / 2 ^ 23 % 2 ^ 8 = 255 ∧ bits % 2 ^ 23 ≠ 0)

/-- Order key for non-NaN `f32` bits: signed magnitude.  Two non-NaN patterns
are IEEE-equal iff their keys agree (the two zeros share key 0) and IEEE
ordering agrees with key ordering. -/
def f32Key (bits : Nat) : Int :=
  if bits / 2 ^ 31 % 2 = 1 then -((bits % 2 ^ 31 : Nat) : Int) else ((bits % 2 ^ 31 : Nat) : Int)

/-- `f32` `==` on bit patterns. -/
def f32Eq (a b : Nat) : Bool := !f32IsNaN a && !f32IsNaN b && decide (f32Key a = f32Key b)

/-- `f32` `<` on bit patterns. -/
def f32Lt (a b : Nat) : Bool := !f32IsNaN a && !f32IsNaN b && decide (f32Key a < f32Key b)

/-- NaN test on `f64` bits. -/
def f64IsNaN (bits : Nat) : Bool := decide (bits / 2 ^ 52 % 2 ^ 11 = 2047 ∧ bits % 2 ^ 52 ≠ 0)

/-- Order key for non-NaN `f64` bits. -/
def f64Key (bits : Nat) : Int :=
  if bits / 2 ^ 63 % 2 = 1 then -((bits % 2 ^ 63 : Nat) : Int) else ((bits % 2 ^ 63 : Nat) : Int)

/-- `f64` `==` on bit patterns. -/
def f64Eq (a b : Nat) : Bool := !f64IsNaN a && !f64IsNaN b && decide (f64Key a = f64Key b)

/-- `f64` `<` on bit patterns. -/
def f64Lt (a b : Nat) : Bool := !f64IsNaN a && !f64IsNaN b && decide (f64Key a < f64Key b)

/-! ## The memory access gateway and the result store -/

/-- The native read layer (`read_memory_native` behind `read_process_memory`):
whether a read of `size` bytes at `addr` succeeds, and the byte content of the
target's memory. -/
structure Gateway where
  ok : Nat → Nat → Bool
  mem : Nat → Nat

/-- `read_process_memory` into a fresh `vec![0; bufLen]` buffer: on success the
first `size` buffer bytes are the target's memory, the rest stay zero
(api.rs allocates the buffer separately from the size it passes down; the
source always has `size ≤ bufLen` except in the filter handler, whose
overflowing reads claim C3 is about). -/
def readBuf (gw : Gateway) (addr size bufLen : Nat) : Option (List Nat) :=
  if gw.ok addr size then
    some ((List.range bufLen).map (fun i => if i < size then gw.mem (addr + i) % 256 else 0))
  else none

/-- GLOBAL_POSITIONS: scan-id to ordered (address, hex value) list. -/
def Store : Type := String → Option (List (Nat × String))

/-- `HashMap::insert`. -/
def Store.set (st : Store) (k : String) (v : List (Nat × String)) : Store :=
  fun k2 => if k2 = k then some v else st k2

/-- `get_mut` + `extend` when the key exists, `insert` otherwise
(api.rs lines 374-380 and 402-406). -/
def Store.appendAt (st : Store) (k : String) (v : List (Nat × String)) : Store :=
  match st k with
  | some ps => st.set k (ps ++ v)
  | none => st.set k v

/-- The clear at scan start (api.rs lines 248-254): `positions.clear()` when
the key exists; an absent key stays absent. -/
def Store.clearAt (st : Store) (k : String) : Store :=
  match st k with
  | some _ => st.set k []
  | none => st

/-- The empty store. -/
def emptyStore : Store := fun _ => none

/-- The `regex::bytes` engine, external to this repository: pattern
compilation, `is_match`, and the (start, end) spans of `captures_iter`. -/
structure RegexEngine where
  Re : Type
  compile : String → Option Re
  isMatch : Re → List Nat → Bool
  findAll : Re → List Nat → List (Nat × Nat)

/-- A degenerate engine used for concrete instantiations whose scenarios never
reach a successful compile (for an invalid pattern `Regex::new` fails). -/
def unitEngine : RegexEngine where
  Re := Unit
  compile := fun _ => none
  isMatch := fun _ _ => false
  findAll := fun _ _ => []

/-! ## memmem::find_iter (the `memchr` crate) -/

/-- Is `needle` a leading run of `l`? -/
def matchesAt : List Nat → List Nat → Bool
  | [], _ => true
  | _ :: _, [] => false
  | a :: as2, b :: bs2 => decide (a = b) && matchesAt as2 bs2

/-- Left-to-right non-overlapping occurrence search; `fuel` starts at the
haystack length and bounds the recursion (each step consumes at least one
element, so fuel never runs out early and the result is fuel-independent). -/
def findIterGo (fuel : Nat) (l needle : List Nat) (i : Nat) : List Nat :=
  match fuel, l with
  | 0, _ => []
  | _, [] => []
  | fuel2 + 1, h :: t =>
    if matchesAt needle (h :: t) then
      i :: findIterGo fuel2 (List.drop (needle.length - 1) t) needle (i + needle.length)
    else
      findIterGo fuel2 t needle (i + 1)

/-- `memmem::find_iter(haystack, needle)`: offsets of all non-overlapping
occurrences; an empty needle matches at every position including the end. -/
def find_iter (haystack needle : List Nat) : List Nat :=
  if needle = [] then List.range (haystack.length + 1)
  else findIterGo haystack.length haystack needle 0

/-! ## The scan engine (memory_scan_handler, api.rs lines 240-468) -/

/-- MemoryScanRequest (api.rs lines 229-238). -/
structure ScanRequest where
  pattern : String
  address_ranges : List (Nat × Nat)
  find_type : String
  data_type : String
  scan_id : String
  align : Nat
  return_as_json : Bool

/-- The 512 MiB chunk size (api.rs line 269). -/
def chunkSize : Nat := 1024 * 1024 * 512

/-- The chunks of one address range: `num_chunks` pieces of start and actual
size (api.rs lines 270-276); only meaningful when the range end is not below
its start (otherwise the handler's `usize` subtraction underflows). -/
def range_chunks (startA endA : Nat) : List (Nat × Nat) :=
  let size := endA - startA
  let n := (size + chunkSize - 1) / chunkSize
  (List.range n).map (fun i =>
    let cs := startA + i * chunkSize
    (cs, min (cs + chunkSize) endA - cs))

/-- The exact/literal search loop (api.rs lines 317-332): iterate the
`find_iter` positions while adding `pos + 1` to a running `buffer_offset`,
report `chunk_start + buffer_offset + pos`, keep the address when it
satisfies the alignment, store the echoed pattern text.  (The source's
`if is_number` at lines 322-328 has identical arms and is dropped.) -/
def literal_step (chunkStart alignment : Nat) (pattern : String)
    (st : Nat × List (Nat × String)) (pos : Nat) : Nat × List (Nat × String) :=
  let start := chunkStart + st.1 + pos
  (st.1 + pos + 1, if start % alignment = 0 then st.2 ++ [(start, pattern)] else st.2)

def literal_scan (chunkStart alignment : Nat) (poss : List Nat) (pattern : String) :
    List (Nat × String) :=
  (poss.foldl (literal_step chunkStart alignment pattern) (0, [])).2

/-- Element width of an unknown scan (api.rs lines 335-340). -/
def unknownWidth (dt : String) : Nat :=
  match dt with
  | "int16" | "uint16" => 2
  | "int32" | "uint32" | "float" => 4
  | "int64" | "uint64" | "double" => 8
  | _ => 1

/-- The unknown-scan loop body (api.rs lines 342-365): step through the buffer
at width `w`, keep aligned offsets, read the little-endian value and re-encode
it as hex of the same width. -/
def unknown_scan (chunkStart alignment w : Nat) (buffer : List Nat) : List (Nat × String) :=
  let upper := buffer.length - w + 1
  (List.range ((upper + w - 1) / w)).foldl (fun acc j =>
    let offset := j * w
    if offset + w > buffer.length then acc
    else if (chunkStart + offset) % alignment = 0 then
      let num := leToNat ((buffer.drop offset).take w)
      acc ++ [(chunkStart + offset, hexEncode (natToLe w num))]
    else acc) []

/-- Result of scanning one chunk.  `panicked` covers the unknown-scan
`buffer.len() - alignment + 1` underflow. -/
inductive ChunkOut
  | panicked
  | matched (ms : List (Nat × String))
deriving DecidableEq

/-- One chunk of the scan (api.rs lines 277-366): read the chunk (failure
contributes nothing), then branch on find type and data type.  An invalid
regex or hex pattern makes the chunk return the empty vector. -/
def chunk_scan (e : RegexEngine) (gw : Gateway) (req : ScanRequest)
    (chunkStart len : Nat) : ChunkOut :=
  match readBuf gw chunkStart len len with
  | none => .matched []
  | some buffer =>
    if req.find_type = "exact" then
      if req.data_type = "regex" then
        match e.compile req.pattern with
        | none => .matched []
        | some re =>
          .matched ((e.findAll re buffer).foldl (fun acc se =>
            if (chunkStart + se.1) % req.align = 0 then
              acc ++ [(chunkStart + se.1, hexEncode ((buffer.drop se.1).take (se.2 - se.1)))]
            else acc) [])
      else
        match hexDecode req.pattern with
        | none => .matched []
        | some needle =>
          .matched (literal_scan chunkStart req.align (find_iter buffer needle) req.pattern)
    else if req.find_type = "unknown" then
      let w := unknownWidth req.data_type
      if buffer.length + 1 < w then .panicked
      else .matched (unknown_scan chunkStart req.align w buffer)
    else .matched []

/-- The running aggregation state: the shared store, each chunk's surviving
local matches (in chunk order), and the shared atomic `found_count`. -/
structure ScanAcc where
  store : Store
  locals : List (List (Nat × String))
  found : Nat

/-- The per-chunk overflow spill (api.rs lines 367-390): local matches beyond
MAX_RESULTS are flushed into the store and the chunk contributes an empty
combined vector; otherwise the combined vector is kept for the final append.
`found_count` was already incremented once per pushed match. -/
def spill_step (sid : String) (acc : ScanAcc) (ms : List (Nat × String)) : ScanAcc :=
  if ms.length > MAX_RESULTS then
    { store := acc.store.appendAt sid ms, locals := acc.locals ++ [[]],
      found := acc.found + ms.length }
  else
    { store := acc.store, locals := acc.locals ++ [ms], found := acc.found + ms.length }

/-- One chunk of the shared fold: scan it and apply the spill step; a panic
(`none`) is sticky. -/
def chunk_step (e : RegexEngine) (gw : Gateway) (req : ScanRequest)
    (o2 : Option ScanAcc) (c : Nat × Nat) : Option ScanAcc :=
  match o2 with
  | none => none
  | some acc2 =>
    match chunk_scan e gw req c.1 c.2 with
    | .panicked => none
    | .matched ms => some (spill_step req.scan_id acc2 ms)

/-- Fold one address range (api.rs lines 266-276): the unguarded
`end_address - start_address` underflows when the end is below the start
(`none` = panic); otherwise every chunk is scanned and spilled in turn. -/
def scan_range (e : RegexEngine) (gw : Gateway) (req : ScanRequest)
    (o : Option ScanAcc) (r : Nat × Nat) : Option ScanAcc :=
  match o with
  | none => none
  | some acc =>
    if r.2 < r.1 then none
    else (range_chunks r.1 r.2).foldl (chunk_step e gw req) (some acc)

/-- All ranges of the request, folded in order over the shared state. -/
def scan_all (e : RegexEngine) (gw : Gateway) (req : ScanRequest) (store1 : Store) :
    Option ScanAcc :=
  req.address_ranges.foldl (scan_range e gw req)
    (some { store := store1, locals := [], found := 0 })

/-- The body a scan response serialises (api.rs lines 409-460). -/
inductive ScanResponse
  | jsonBody (matched : List (Nat × String)) (found : Nat) (isRounded : Bool)
  | countOnly (found : Nat)
  | unknownError
deriving DecidableEq

/-- Response formatting: look the scan id up in the store; JSON output is
capped at MAX_RESULTS with `is_rounded` when the cap bit, `found` is the
atomic counter; the count-only path returns just the counter. -/
def scan_response (store : Store) (sid : String) (found : Nat) (asJson : Bool) : ScanResponse :=
  match store sid with
  | none => .unknownError
  | some positions =>
    if asJson then
      let limited := positions.take MAX_RESULTS
      .jsonBody limited found (decide (limited.length ≠ positions.length))
    else .countOnly found

/-- Outcome of the scan handler. -/
inductive ScanOutcome
  | pidNotSet
  | panicked
  | success (store : Store) (found : Nat) (resp : ScanResponse)

/-- memory_scan_handler: reject when no pid is attached, clear the scan id,
scan every range, append the flattened surviving locals, and format the
response from the stored list. -/
def memory_scan (e : RegexEngine) (gw : Gateway) (pidState : Option Int)
    (req : ScanRequest) (store0 : Store) : ScanOutcome :=
  match pidState with
  | none => .pidNotSet
  | some _ =>
    let store1 := store0.clearAt req.scan_id
    match scan_all e gw req store1 with
    | none => .panicked
    | some acc =>
      let store2 := acc.store.appendAt req.scan_id acc.locals.flatten
      .success store2 acc.found (scan_response store2 req.scan_id acc.found req.return_as_json)

/-- The response part of a scan outcome. -/
def ScanOutcome.respOf : ScanOutcome → Option ScanResponse
  | .success _ _ r => some r
  | _ => none

/-- The stored list under a scan id after the handler ran (when it returned). -/
def ScanOutcome.storedAt : ScanOutcome → String → Option (List (Nat × String))
  | .success st _ _, sid => st sid
  | _, _ => none

/-- The final value of the atomic found counter (when the handler returned). -/
def ScanOutcome.foundOf : ScanOutcome → Option Nat
  | .success _ f _ => some f
  | _ => none

/-! ## The filter engine (memory_filter_handler, api.rs lines 491-766) -/

/-- MemoryFilterRequest (api.rs lines 482-489). -/
structure FilterRequest where
  pattern : String
  data_type : String
  scan_id : String
  filter_method : String
  return_as_json : Bool

/-- The byte count passed to `read_process_memory` for one candidate
(api.rs line 508): the pattern's string length, for every data type.
The buffer it is read into has `value.len() / 2` bytes. -/
def filter_read_size (req : FilterRequest) (value : String) : Nat := req.pattern.length

/-- Modelled from the spec (§4.2): "re-read current memory at the match's
address for a length derived from the stored value's byte length (or, for
regex, the filter pattern's length)" — written from the spec's words for
comparison with the source's `filter_read_size`. -/
def filter_read_size_spec (req : FilterRequest) (value : String) : Nat :=
  if req.data_type = "regex" then req.pattern.length else value.length / 2

/-- The `compare_values!` macro (api.rs lines 470-480) for integer values. -/
def compare_values (v old : Int) (method : String) : Bool :=
  if method = "changed" then decide (v ≠ old)
  else if method = "unchanged" then decide (v = old)
  else if method = "increased" then decide (old < v)
  else if method = "decreased" then decide (v < old)
  else false

/-- `compare_values!` instantiated at `f32` (IEEE comparisons on bit patterns). -/
def compare_values_f32 (v old : Nat) (method : String) : Bool :=
  if method = "changed" then !f32Eq v old
  else if method = "unchanged" then f32Eq v old
  else if method = "increased" then f32Lt old v
  else if method = "decreased" then f32Lt v old
  else false

/-- `compare_values!` instantiated at `f64`. -/
def compare_values_f64 (v old : Nat) (method : String) : Bool :=
  if method = "changed" then !f64Eq v old
  else if method = "unchanged" then f64Eq v old
  else if method = "increased" then f64Lt old v
  else if method = "decreased" then f64Lt v old
  else false

/-- Byte width and signedness of the integer data types. -/
def intWidth : String → Option (Nat × Bool)
  | "int8" => some (1, true)
  | "uint8" => some (1, false)
  | "int16" => some (2, true)
  | "uint16" => some (2, false)
  | "int32" => some (4, true)
  | "uint32" => some (4, false)
  | "int64" => some (8, true)
  | "uint64" => some (8, false)
  | _ => none

/-- Outcome of one comparison: a boolean, or a panic from a failed
fixed-width conversion. -/
inductive CmpOut
  | panicked
  | val (b : Bool)
deriving DecidableEq

/-- The relational dispatch on `data_type` (api.rs lines 558-696).  `bytes` is
the decoded stored value, `buf` the freshly read buffer.  Integer types
convert both through `try_into().unwrap()`, which panics unless the length
equals the width; `float`/`double` use `byteorder` reads of the leading 4/8
bytes, which panic only when the slice is shorter; `utf-8` compares
`from_utf8(..).unwrap_or("")`, `utf-16` compares native-endian u16 chunks,
`aob` compares raw bytes (the last three only for changed/unchanged); any
other data type yields `false`. -/
def filter_compare_rest (dt method : String) (bytes buf : List Nat) : CmpOut :=
  if dt = "float" then
      if 4 ≤ bytes.length ∧ 4 ≤ buf.length then
        .val (compare_values_f32 (leToNat (buf.take 4)) (leToNat (bytes.take 4)) method)
      else .panicked
    else if dt = "double" then
      if 8 ≤ bytes.length ∧ 8 ≤ buf.length then
        .val (compare_values_f64 (leToNat (buf.take 8)) (leToNat (bytes.take 8)) method)
      else .panicked
    else if dt = "utf-8" then
      .val (if method = "changed" then decide (utf8OrEmpty buf ≠ utf8OrEmpty bytes)
            else if method = "unchanged" then decide (utf8OrEmpty buf = utf8OrEmpty bytes)
            else false)
    else if dt = "utf-16" then
      .val (if method = "changed" then decide (toU16List buf ≠ toU16List bytes)
            else if method = "unchanged" then decide (toU16List buf = toU16List bytes)
            else false)
    else if dt = "aob" then
      .val (if method = "changed" then decide (buf ≠ bytes)
            else if method = "unchanged" then decide (buf = bytes)
            else false)
    else .val false

/-- The relational dispatch continued: integer types go through the
fixed-width `try_into().unwrap()` conversions, everything else through
`filter_compare_rest`. -/
def filter_compare (dt method : String) (bytes buf : List Nat) : CmpOut :=
  match intWidth dt with
  | some (w, signed) =>
    if bytes.length = w ∧ buf.length = w then
      if signed then .val (compare_values (leToInt w buf) (leToInt w bytes) method)
      else .val (compare_values (leToNat buf) (leToNat bytes) method)
    else .panicked
  | none => filter_compare_rest dt method bytes buf

/-- Outcome of one filter candidate. -/
inductive CandOut
  | keep (addr : Nat) (value : String)
  | drop
  | invalidHexResp
  | panicked
deriving DecidableEq

/-- One candidate of the filter (api.rs lines 503-704): read
`pattern.len()` bytes at the stored address into a `value.len()/2`-byte
buffer; a failed read drops the candidate.  `regex` keeps candidates whose
buffer matches (an invalid regex drops them); the `exact` method compares the
buffer against the hex-decoded pattern (invalid hex is a client error); every
other method decodes the stored value (invalid hex is a client error) and
dispatches on the data type.  A kept candidate stores the hex of the buffer. -/
def filter_candidate (e : RegexEngine) (gw : Gateway) (req : FilterRequest)
    (addr : Nat) (value : String) : CandOut :=
  match readBuf gw addr (filter_read_size req value) (value.length / 2) with
  | none => .drop
  | some buf =>
    if req.data_type = "regex" then
      match e.compile req.pattern with
      | none => .drop
      | some re => if e.isMatch re buf then .keep addr (hexEncode buf) else .drop
    else if req.filter_method = "exact" then
      match hexDecode req.pattern with
      | none => .invalidHexResp
      | some bytes => if buf = bytes then .keep addr (hexEncode buf) else .drop
    else
      match hexDecode value with
      | none => .invalidHexResp
      | some bytes =>
        match filter_compare req.data_type req.filter_method bytes buf with
        | .panicked => .panicked
        | .val true => .keep addr (hexEncode buf)
        | .val false => .drop

/-- Outcome of mapping the candidate function over the stored matches and
collecting the `Result`s (api.rs lines 501-712): the kept pairs in order, or
the first abnormal outcome. -/
inductive RunOut
  | kept (ps : List (Nat × String))
  | invalidHexResp
  | panicked
deriving DecidableEq

/-- Sequential linearisation of the parallel candidate map. -/
def run_candidates (f : Nat → String → CandOut) : List (Nat × String) → RunOut
  | [] => .kept []
  | (a, v) :: rest =>
    match f a v with
    | .keep a2 v2 =>
      match run_candidates f rest with
      | .kept ps => .kept ((a2, v2) :: ps)
      | r => r
    | .drop => run_candidates f rest
    | .invalidHexResp => .invalidHexResp
    | .panicked => .panicked

/-- The body a filter response serialises. -/
inductive FilterResponse
  | jsonBody (matched : List (Nat × String)) (found : Nat) (isRounded : Bool)
  | countOnly (found : Nat)
deriving DecidableEq

/-- Filter response formatting (api.rs lines 723-758): `limited_positions`
and `is_rounded` are computed from the MAX_RESULTS cap, but the serialised
`matched_addresses` list is built from the whole `new_positions` vector;
`found` is the retained count. -/
def filter_response (req : FilterRequest) (newPositions : List (Nat × String)) : FilterResponse :=
  if req.return_as_json then
    let limited := newPositions.take MAX_RESULTS
    .jsonBody newPositions newPositions.length (decide (limited.length ≠ newPositions.length))
  else .countOnly newPositions.length

/-- Outcome of the filter handler. -/
inductive FilterOutcome
  | pidNotSet
  | scanIdNotFound
  | invalidHexResp
  | panicked
  | success (store : Store) (retained : List (Nat × String)) (resp : FilterResponse)

/-- memory_filter_handler: reject when no pid is attached or the scan id is
unknown; otherwise filter every stored candidate, replace the stored list
wholesale with the kept ones, and format the response. -/
def memory_filter (e : RegexEngine) (gw : Gateway) (pidState : Option Int)
    (req : FilterRequest) (store : Store) : FilterOutcome :=
  match pidState with
  | none => .pidNotSet
  | some _ =>
    match store req.scan_id with
    | none => .scanIdNotFound
    | some ps =>
      match run_candidates (fun a v => filter_candidate e gw req a v) ps with
      | .invalidHexResp => .invalidHexResp
      | .panicked => .panicked
      | .kept newPositions =>
        .success (store.set req.scan_id newPositions) newPositions
          (filter_response req newPositions)

/-- The retained list of a filter outcome. -/
def FilterOutcome.retainedOf : FilterOutcome → Option (List (Nat × String))
  | .success _ r _ => some r
  | _ => none

/-- The response of a successful filter outcome. -/
def FilterOutcome.respOf : FilterOutcome → Option FilterResponse
  | .success _ _ r => some r
  | _ => none

/-- Whether a filter outcome is a panic. -/
def FilterOutcome.isPanicked : FilterOutcome → Bool
  | .panicked => true
  | _ => false

/-- Whether a filter outcome is one of the client-error (400) responses. -/
def FilterOutcome.isBadRequest : FilterOutcome → Bool
  | .pidNotSet => true
  | .scanIdNotFound => true
  | .invalidHexResp => true
  | _ => false

/-! ## The batch read codec (read_memory_multiple_handler, api.rs lines 131-183) -/

/-- The encoder: each (address, size) request is read through the gateway;
a successful read is compressed (`lz4::block::compress`, an external block
compressor passed in as a function) and contributes flag 1, the compressed
length as `u32` little-endian, then the payload; a failed read contributes
flag 0 alone.  The per-request buffers are concatenated in request order. -/
def read_memory_multiple (gw : Gateway) (compress : List Nat → List Nat)
    (requests : List (Nat × Nat)) : List Nat :=
  let buffers := requests.map (fun rq =>
    match readBuf gw rq.1 rq.2 rq.2 with
    | some buffer =>
      let cb := compress buffer
      u32le 1 ++ u32le (cb.length % 4294967296) ++ cb
    | none => u32le 0)
  buffers.foldl (fun acc b => acc ++ b) []

/-- Modelled from the spec (§4.4): the record format one request contributes,
written independently of the encoder. -/
def batch_record_format (compress : List Nat → List Nat) (r : Option (List Nat)) : List Nat :=
  match r with
  | some buffer => u32le 1 ++ u32le (compress buffer).length ++ compress buffer
  | none => u32le 0

/-- Modelled from the spec (§4.4): the whole buffer is the order-preserving
concatenation of the records, with no separators. -/
def batch_format (gw : Gateway) (compress : List Nat → List Nat)
    (requests : List (Nat × Nat)) : List Nat :=
  (requests.map (fun rq => batch_record_format compress (readBuf gw rq.1 rq.2 rq.2))).flatten

/-! ## Concrete scenario inputs used by the claim theorems and witnesses -/

/-- Memory of the C1 scenario: byte 0xff exactly at 0x1010 and 0x1020. -/
def c1Gw : Gateway where
  ok := fun _ _ => true
  mem := fun a => if a = 0x1010 ∨ a = 0x1020 then 0xff else 0

/-- The C1 scan request from §8 of the spec. -/
def c1Req : ScanRequest where
  pattern := "ff"
  address_ranges := [(0x1000, 0x2000)]
  find_type := "exact"
  data_type := "aob"
  scan_id := "s1"
  align := 1
  return_as_json := true

/-- All-zero always-readable memory. -/
def zeroGw : Gateway where
  ok := fun _ _ => true
  mem := fun _ => 0

/-- An `aob`/`unchanged` filter request with an empty pattern. -/
def aobUnchangedReq : FilterRequest where
  pattern := ""
  data_type := "aob"
  scan_id := "s"
  filter_method := "unchanged"
  return_as_json := false

/-- The same request asking for JSON output. -/
def aobUnchangedJsonReq : FilterRequest :=
  { aobUnchangedReq with return_as_json := true }

/-- A filter request declaring int32 over a one-byte stored value (C10). -/
def int32ChangedReq : FilterRequest where
  pattern := ""
  data_type := "int32"
  scan_id := "s"
  filter_method := "changed"
  return_as_json := false

/-- A float filter request (C10 counterexample: six-byte stored value). -/
def floatChangedReq : FilterRequest :=
  { int32ChangedReq with data_type := "float" }

/-- A double filter request. -/
def doubleChangedReq : FilterRequest :=
  { int32ChangedReq with data_type := "double" }

/-- A regex filter request whose pattern does not compile (C4). -/
def regexFilterReq : FilterRequest where
  pattern := "("
  data_type := "regex"
  scan_id := "s"
  filter_method := "unchanged"
  return_as_json := false

/-- A non-regex filter request used for the C3 read-length comparison. -/
def c3Req : FilterRequest where
  pattern := "00000000"
  data_type := "int32"
  scan_id := "s"
  filter_method := "changed"
  return_as_json := false

/-! # Lemmas -/

/-- The single byte function generating the C1 chunk buffer. -/
def c1g (j : Nat) : Nat := if j = 16 ∨ j = 32 then 255 else 0

/-- A scan request whose single range has end below start. -/
def c9Req : ScanRequest where
  pattern := "ff"
  address_ranges := [(0x2000, 0x1000)]
  find_type := "exact"
  data_type := "aob"
  scan_id := "s9"
  align := 1
  return_as_json := false

/-- The store of the C10 counterexample: a six-byte stored value declared
float. -/
def c10CeStore : Store := Store.set emptyStore "s" [(0, "000000000000")]

/-- The store holding 100001 retained aob candidates. -/
def c2Store : Store := Store.set emptyStore "s" (List.replicate 100001 (0, "00"))

/-- The store of the C4 scenarios: one stored candidate under id s. -/
def c4Store : Store := Store.set emptyStore "s" [(0, "00")]

/-- A scan request with an undecodable hex pattern. -/
def c4aReq : ScanRequest where
  pattern := "zz"
  address_ranges := [(0, 16)]
  find_type := "exact"
  data_type := "aob"
  scan_id := "s4"
  align := 1
  return_as_json := false

/-- A scan request with a regex pattern that does not compile. -/
def c4bReq : ScanRequest :=
  { c4aReq with data_type := "regex", pattern := "(" }

/-- An exact filter request with an undecodable hex pattern. -/
def c4cReq : FilterRequest where
  pattern := "zz"
  data_type := "aob"
  scan_id := "s"
  filter_method := "exact"
  return_as_json := false

/-- Length of the list stored under a scan id (empty when absent). -/
def sidLen (st : Store) (sid : String) : Nat := ((st sid).getD []).length

/-- The C5 bookkeeping invariant: stored length plus pending local matches
equals the base plus the atomic found counter. -/
def scanInv (sid : String) (B : Nat) (acc : ScanAcc) : Prop :=
  sidLen acc.store sid + acc.locals.flatten.length = B + acc.found

/-- The generating function of the all-zero C5 buffer. -/
def c5g (j : Nat) : Nat := 0

/-- The C5 scan request: one 128 KiB all-zero chunk, single-byte pattern,
alignment 1, so the chunk yields 131072 > 100000 local matches. -/
def c5Req : ScanRequest where
  pattern := "00"
  address_ranges := [(0, 131072)]
  find_type := "exact"
  data_type := "aob"
  scan_id := "s5"
  align := 1
  return_as_json := false

/-- The C5 chunk's matches. -/
def c5Matches : List (Nat × String) :=
  literal_scan 0 1 ((List.range 131072).map (fun k => 0 + k)) "00"

/-- Every reported address satisfies the alignment. -/
def allAligned (A : Nat) (l : List (Nat × String)) : Prop := ∀ q ∈ l, q.1 % A = 0

/-- The C6 invariant: everything stored under the scan id and every pending
local chunk result is aligned. -/
def accAligned (A : Nat) (sid : String) (acc : ScanAcc) : Prop :=
  allAligned A ((acc.store sid).getD []) ∧ ∀ l ∈ acc.locals, allAligned A l

/-- The C6 scenario: the C1 scan with alignment 2. -/
def c6Req : ScanRequest :=
  { c1Req with align := 2, scan_id := "s6" }

theorem hexDigitVal_hexDigitChar (n : Nat) (h : n < 16) :
    hexDigitVal (hexDigitChar n) = some n := by
  interval_cases n <;> rfl

theorem hexPairs_hexEncodeChars (bs : List Nat) (h : ∀ b ∈ bs, b < 256) :
    hexPairs (hexEncodeChars bs) = some bs := by
  induction bs with
  | nil => rfl
  | cons b bs ih =>
    have hb : b < 256 := h b (by simp)
    have h1 : b / 16 % 16 < 16 := Nat.mod_lt _ (by norm_num)
    have h2 : b % 16 < 16 := Nat.mod_lt _ (by norm_num)
    have ih2 := ih (fun x hx => h x (by simp [hx]))
    simp only [hexEncodeChars, hexPairs, hexDigitVal_hexDigitChar _ h1,
      hexDigitVal_hexDigitChar _ h2, ih2]
    congr 1
    congr 1
    omega

theorem hexDecode_hexEncode (bs : List Nat) (h : ∀ b ∈ bs, b < 256) :
    hexDecode (hexEncode bs) = some bs := by
  simpa [hexDecode, hexEncode] using hexPairs_hexEncodeChars bs h

theorem hexPairs_length : ∀ (l : List Char) (bs : List Nat),
    hexPairs l = some bs → l.length = 2 * bs.length
  | [], bs, h => by
    simp only [hexPairs, Option.some.injEq] at h
    simp [← h]
  | [c], bs, h => by simp [hexPairs] at h
  | c1 :: c2 :: rest, bs, h => by
    simp only [hexPairs] at h
    cases h1 : hexDigitVal c1 with
    | none => rw [h1] at h; simp at h
    | some hi =>
      cases h2 : hexDigitVal c2 with
      | none => rw [h1, h2] at h; simp at h
      | some lo =>
        cases h3 : hexPairs rest with
        | none => rw [h1, h2, h3] at h; simp at h
        | some tl =>
          rw [h1, h2, h3] at h
          simp only [Option.some.injEq] at h
          have := hexPairs_length rest tl h3
          subst h
          simp [this]
          omega

theorem hexDecode_length (v : String) (bs : List Nat) (h : hexDecode v = some bs) :
    v.length = 2 * bs.length :=
  hexPairs_length v.toList bs h

theorem hexEncodeChars_length (bs : List Nat) :
    (hexEncodeChars bs).length = 2 * bs.length := by
  induction bs with
  | nil => rfl
  | cons b bs ih => simp [hexEncodeChars, ih]; omega

theorem hexEncode_length (bs : List Nat) : (hexEncode bs).length = 2 * bs.length := by
  simpa [hexEncode, String.length] using hexEncodeChars_length bs

theorem readBuf_length (gw : Gateway) (a s n : Nat) (l : List Nat)
    (h : readBuf gw a s n = some l) : l.length = n := by
  unfold readBuf at h
  split at h
  · simp only [Option.some.injEq] at h
    simp [← h]
  · simp at h

theorem readBuf_lt_256 (gw : Gateway) (a s n : Nat) (l : List Nat)
    (h : readBuf gw a s n = some l) : ∀ b ∈ l, b < 256 := by
  unfold readBuf at h
  split at h
  · simp only [Option.some.injEq] at h
    intro b hb
    rw [← h] at hb
    simp only [List.mem_map] at hb
    obtain ⟨i, _, hi⟩ := hb
    split at hi <;> omega
  · simp at h

theorem readBuf_ok (gw : Gateway) (a s n : Nat) (l : List Nat)
    (h : readBuf gw a s n = some l) : gw.ok a s = true := by
  unfold readBuf at h
  split at h
  · assumption
  · simp at h

theorem intWidth_ne_regex (dt : String) (w : Nat) (sg : Bool)
    (h : intWidth dt = some (w, sg)) : dt ≠ "regex" := by
  intro he
  rw [he] at h
  simp [intWidth] at h

/-- Positions of a single-byte needle over a function-generated buffer:
each position is visited once (match or not, the search advances by one for
a one-byte needle), so the hits are exactly the generator's hit indices. -/
theorem findIterGo_byte (g : Nat → Nat) (b : Nat) :
    ∀ (n a i : Nat),
      findIterGo n ((List.range n).map (fun k => g (a + k))) [b] i =
        ((List.range n).filter (fun k => decide (g (a + k) = b))).map (fun k => i + k) := by
  intro n
  induction n with
  | zero => intro a i; rfl
  | succ n ih =>
    intro a i
    have e1 : (List.range (n + 1)).map (fun k => g (a + k)) =
        g a :: (List.range n).map (fun k => g (a + 1 + k)) := by
      rw [List.range_succ_eq_map, List.map_cons, List.map_map]
      congr 1
      apply List.map_congr_left
      intro k _
      simp only [Function.comp_apply]
      congr 1
      omega
    have e2 : (List.range (n + 1)).filter (fun k => decide (g (a + k) = b)) =
        (if g a = b then [0] else []) ++
          ((List.range n).filter (fun k => decide (g (a + 1 + k) = b))).map Nat.succ := by
      rw [List.range_succ_eq_map, List.filter_cons]
      rw [List.filter_map]
      have e3 : (List.range n).filter ((fun k => decide (g (a + k) = b)) ∘ Nat.succ) =
          (List.range n).filter (fun k => decide (g (a + 1 + k) = b)) := by
        apply List.filter_congr
        intro k _
        simp only [Function.comp_apply]
        have e4 : a + Nat.succ k = a + 1 + k := by omega
        rw [e4]
      rw [e3]
      by_cases hb : g a = b
      · rw [if_pos (show decide (g (a + 0) = b) = true by simpa using hb), if_pos hb]
        rfl
      · rw [if_neg (show ¬decide (g (a + 0) = b) = true by simpa using hb), if_neg hb]
        rfl
    rw [e1, e2]
    by_cases hb : g a = b
    · have hm : matchesAt [b] (g a :: (List.range n).map (fun k => g (a + 1 + k))) =
          true := by
        simp [matchesAt, hb]
      simp only [findIterGo, hm, if_true, if_pos hb]
      rw [show List.drop ([b].length - 1) ((List.range n).map (fun k => g (a + 1 + k))) =
        (List.range n).map (fun k => g (a + 1 + k)) from by simp]
      rw [show i + [b].length = i + 1 from by simp]
      rw [ih (a + 1) (i + 1)]
      simp only [List.map_cons, List.map_append, List.map_map, List.singleton_append]
      congr 1
      all_goals
        first
          | omega
          | (apply List.map_congr_left
             intro k _
             simp only [Function.comp_apply]
             omega)
    · have hm : matchesAt [b] (g a :: (List.range n).map (fun k => g (a + 1 + k))) =
          false := by
        simp only [matchesAt, Bool.and_true, decide_eq_false_iff_not]
        intro h
        exact hb h.symm
      simp only [findIterGo, hm, Bool.false_eq_true, if_false, if_neg hb]
      rw [ih (a + 1) (i + 1)]
      simp only [List.nil_append, List.map_map]
      apply List.map_congr_left
      intro k _
      simp only [Function.comp_apply]
      omega

/-- The C1 chunk read. -/
theorem c1_read :
    readBuf c1Gw 4096 4096 4096 =
      some ((List.range 4096).map (fun k => c1g (0 + k))) := by
  unfold readBuf
  rw [if_pos (show c1Gw.ok 4096 4096 = true from rfl)]
  refine congrArg some ?_
  refine List.map_congr_left ?_
  intro i hi
  simp only [List.mem_range] at hi
  simp only [hi, if_true, c1Gw, c1g]
  by_cases h : i = 16 ∨ i = 32
  · have h4 : 4096 + i = 0x1010 ∨ 4096 + i = 0x1020 := by omega
    have h0 : 0 + i = 16 ∨ 0 + i = 32 := by omega
    simp [h4, h0, h]
  · have h4 : ¬(4096 + i = 0x1010 ∨ 4096 + i = 0x1020) := by omega
    have h0 : ¬(0 + i = 16 ∨ 0 + i = 32) := by omega
    simp [h4, h0, h]

/-- The find_iter positions of the C1 chunk. -/
theorem c1_find :
    find_iter ((List.range 4096).map (fun k => c1g (0 + k))) [255] = [16, 32] := by
  unfold find_iter
  rw [if_neg (by simp)]
  have hlen : ((List.range 4096).map (fun k => c1g (0 + k))).length = 4096 := by simp
  rw [hlen, findIterGo_byte c1g 255 4096 0 0]
  have hq : ∀ k ∈ List.range 4096,
      decide (c1g (0 + k) = 255) = decide (k = 16 ∨ k = 32) := by
    intro k _
    by_cases h : k = 16 ∨ k = 32
    · have h0 : 0 + k = 16 ∨ 0 + k = 32 := by omega
      simp [c1g, h0, h]
    · have h0 : ¬(0 + k = 16 ∨ 0 + k = 32) := by omega
      simp [c1g, h0, h]
  rw [List.filter_congr hq]
  rw [show (4096 : Nat) = 33 + 4063 from by norm_num, List.range_add, List.filter_append]
  rw [show (List.range 33).filter (fun k => decide (k = 16 ∨ k = 32)) = [16, 32] from by decide]
  rw [List.filter_eq_nil_iff.mpr (by
    intro x hx
    simp only [List.mem_map, List.mem_range] at hx
    obtain ⟨j, _, rfl⟩ := hx
    simp
    omega)]
  rfl

/-- The C1 chunk scan result: the second address carries the stale
`buffer_offset` (16 + 1) on top of the real offset 32. -/
theorem c1_chunk :
    chunk_scan unitEngine c1Gw c1Req 4096 4096 =
      .matched [(4112, "ff"), (4145, "ff")] := by
  unfold chunk_scan
  rw [c1_read]
  show (if c1Req.find_type = "exact" then _ else _) = _
  rw [if_pos (show c1Req.find_type = "exact" from rfl)]
  rw [if_neg (show ¬c1Req.data_type = "regex" by decide)]
  rw [show hexDecode c1Req.pattern = some [255] from by rfl]
  show ChunkOut.matched (literal_scan 4096 c1Req.align
    (find_iter ((List.range 4096).map (fun k => c1g (0 + k))) [255]) c1Req.pattern) = _
  rw [c1_find]
  rfl

theorem range_chunks_single (s len : Nat) (h0 : 0 < len) (hcs : len ≤ chunkSize) :
    range_chunks s (s + len) = [(s, len)] := by
  simp only [range_chunks]
  rw [Nat.add_sub_cancel_left]
  have hn : (len + chunkSize - 1) / chunkSize = 1 := by
    unfold chunkSize at *
    omega
  rw [hn]
  rw [show List.range 1 = [0] from rfl, List.map_cons, List.map_nil]
  have h1 : s + 0 * chunkSize = s := by omega
  rw [h1]
  have h2 : min (s + chunkSize) (s + len) - s = len := by
    have hcs2 : len ≤ chunkSize := hcs
    unfold chunkSize at hcs2
    unfold chunkSize
    omega
  rw [h2]

/-- Symbolic evaluation of a scan with one range that fits in one chunk and
does not overflow the spill bound. -/
theorem memory_scan_single (e : RegexEngine) (gw : Gateway) (p : Int) (req : ScanRequest)
    (store0 : Store) (s len : Nat) (ms : List (Nat × String))
    (hranges : req.address_ranges = [(s, s + len)])
    (h0 : 0 < len) (hcs : len ≤ chunkSize)
    (hchunk : chunk_scan e gw req s len = .matched ms)
    (hsmall : ¬ ms.length > MAX_RESULTS) :
    memory_scan e gw (some p) req store0 =
      .success ((store0.clearAt req.scan_id).appendAt req.scan_id ms) ms.length
        (scan_response ((store0.clearAt req.scan_id).appendAt req.scan_id ms)
          req.scan_id ms.length req.return_as_json) := by
  have hchunks : range_chunks s (s + len) = [(s, len)] := range_chunks_single s len h0 hcs
  have hall : scan_all e gw req (store0.clearAt req.scan_id) =
      some { store := store0.clearAt req.scan_id, locals := [] ++ [ms],
             found := 0 + ms.length } := by
    unfold scan_all
    rw [hranges, List.foldl_cons, List.foldl_nil]
    simp only [scan_range]
    rw [if_neg (by omega)]
    rw [hchunks, List.foldl_cons, List.foldl_nil]
    simp only [chunk_step]
    rw [hchunk]
    simp only [spill_step]
    rw [if_neg hsmall]
  simp only [memory_scan]
  rw [hall]
  simp only [List.nil_append, List.flatten_cons, List.flatten_nil, List.append_nil, Nat.zero_add]

/-- The full C1 scan outcome. -/
theorem c1_eval :
    memory_scan unitEngine c1Gw (some 1) c1Req emptyStore =
      .success (emptyStore.set "s1" [(4112, "ff"), (4145, "ff")]) 2
        (.jsonBody [(4112, "ff"), (4145, "ff")] 2 false) := by
  have h := memory_scan_single unitEngine c1Gw 1 c1Req emptyStore 4096 4096
    [(4112, "ff"), (4145, "ff")] (by rfl) (by norm_num)
    (by unfold chunkSize; norm_num) c1_chunk (by simp [MAX_RESULTS])
  rw [h]
  rfl

/-- Claim C1: the spec's Exact/literal scenario (scan id s1, hex pattern ff,
range 0x1000-0x2000, alignment 1, 0xff at offsets 0x10 and 0x20).  The code
stores and reports the first match at 0x1010 but the second at 0x1031, not
0x1020: the literal search adds a running `buffer_offset` on top of the
absolute `find_iter` position, so reported addresses after the first match
are not chunk start plus occurrence offset.  `found` is still 2. -/
theorem C1_scan_scenario :
    (memory_scan unitEngine c1Gw (some 1) c1Req emptyStore).storedAt "s1" =
      some [(0x1010, "ff"), (0x1031, "ff")] ∧
    (memory_scan unitEngine c1Gw (some 1) c1Req emptyStore).respOf =
      some (.jsonBody [(0x1010, "ff"), (0x1031, "ff")] 2 false) ∧
    (memory_scan unitEngine c1Gw (some 1) c1Req emptyStore).storedAt "s1" ≠
      some [(0x1010, "ff"), (0x1020, "ff")] := by
  rw [c1_eval]
  refine ⟨?_, rfl, ?_⟩
  · simp [ScanOutcome.storedAt, Store.set]
  · simp [ScanOutcome.storedAt, Store.set]

/-- Claim C3: the filter's per-candidate read size.  The source passes the
pattern's string length to `read_process_memory` for every data type (into a
buffer sized from the stored value), so for a non-regex filter the read
length is not derived from the stored value's byte length: with pattern
"00000000" (int32 filter) and stored value "0a" the code reads 8 bytes where
the value-derived length is 1. -/
theorem C3_filter_read_size :
    filter_read_size c3Req "0a" = 8 ∧ filter_read_size_spec c3Req "0a" = 1 ∧
    filter_read_size c3Req "0a" ≠ filter_read_size_spec c3Req "0a" :=
  ⟨rfl, rfl, by decide⟩

theorem foldl_scan_range_none (e : RegexEngine) (gw : Gateway) (req : ScanRequest)
    (l : List (Nat × Nat)) : l.foldl (scan_range e gw req) none = none := by
  induction l with
  | nil => rfl
  | cons r l ih =>
    rw [List.foldl_cons]
    exact ih

theorem foldl_scan_range_bad (e : RegexEngine) (gw : Gateway) (req : ScanRequest) :
    ∀ (l : List (Nat × Nat)) (o : Option ScanAcc), (∃ r ∈ l, r.2 < r.1) →
      l.foldl (scan_range e gw req) o = none := by
  intro l
  induction l with
  | nil =>
    intro o h
    simp at h
  | cons r l ih =>
    intro o h
    rw [List.foldl_cons]
    cases o with
    | none =>
      rw [show scan_range e gw req none r = none from rfl]
      exact foldl_scan_range_none e gw req l
    | some acc =>
      by_cases hr : r.2 < r.1
      · have hnone : scan_range e gw req (some acc) r = none := by
          simp only [scan_range]
          rw [if_pos hr]
        rw [hnone]
        exact foldl_scan_range_none e gw req l
      · obtain ⟨r0, hmem, hlt⟩ := h
        rcases List.mem_cons.mp hmem with rfl | hmem2
        · exact absurd hlt hr
        · exact ih _ ⟨r0, hmem2, hlt⟩

theorem scan_all_bad (e : RegexEngine) (gw : Gateway) (req : ScanRequest) (store1 : Store)
    (h : ∃ r ∈ req.address_ranges, r.2 < r.1) : scan_all e gw req store1 = none := by
  unfold scan_all
  exact foldl_scan_range_bad e gw req req.address_ranges _ h

/-- Claim C9: an address range whose end is below its start hits the
unguarded `end_address - start_address` subtraction before any per-chunk
error handling, so the request neither produces an error response nor a
zero-match success: in the embedding the scan outcome is the panic. -/
theorem C9_range_underflow (e : RegexEngine) (gw : Gateway) (p : Int) (req : ScanRequest)
    (store0 : Store) (h : ∃ r ∈ req.address_ranges, r.2 < r.1) :
    memory_scan e gw (some p) req store0 = .panicked := by
  simp only [memory_scan]
  rw [scan_all_bad e gw req _ h]

theorem C9_range_underflow_witness :
    memory_scan unitEngine zeroGw (some 1) c9Req emptyStore = .panicked :=
  C9_range_underflow unitEngine zeroGw 1 c9Req emptyStore
    ⟨(0x2000, 0x1000), by decide, by norm_num⟩

theorem memory_filter_eq (e : RegexEngine) (gw : Gateway) (p : Int) (req : FilterRequest)
    (store : Store) (ps : List (Nat × String)) (hst : store req.scan_id = some ps) :
    memory_filter e gw (some p) req store =
      match run_candidates (fun a v => filter_candidate e gw req a v) ps with
      | .invalidHexResp => .invalidHexResp
      | .panicked => .panicked
      | .kept newPositions =>
        .success (store.set req.scan_id newPositions) newPositions
          (filter_response req newPositions) := by
  simp only [memory_filter]
  rw [hst]

theorem filter_candidate_relational (e : RegexEngine) (gw : Gateway) (req : FilterRequest)
    (a : Nat) (v : String) (buf bs : List Nat)
    (hbuf : readBuf gw a (filter_read_size req v) (v.length / 2) = some buf)
    (hdt : req.data_type ≠ "regex") (hm : req.filter_method ≠ "exact")
    (hv : hexDecode v = some bs) :
    filter_candidate e gw req a v =
      match filter_compare req.data_type req.filter_method bs buf with
      | .panicked => .panicked
      | .val true => .keep a (hexEncode buf)
      | .val false => .drop := by
  unfold filter_candidate
  rw [hbuf]
  dsimp only
  rw [if_neg hdt, if_neg hm, hv]

theorem run_candidates_cons_panicked (f : Nat → String → CandOut) (a : Nat) (v : String)
    (rest : List (Nat × String)) (h : f a v = .panicked) :
    run_candidates f ((a, v) :: rest) = .panicked := by
  unfold run_candidates
  rw [h]

theorem run_candidates_cons_invalid (f : Nat → String → CandOut) (a : Nat) (v : String)
    (rest : List (Nat × String)) (h : f a v = .invalidHexResp) :
    run_candidates f ((a, v) :: rest) = .invalidHexResp := by
  unfold run_candidates
  rw [h]

theorem filter_panic_first (e : RegexEngine) (gw : Gateway) (p : Int) (req : FilterRequest)
    (store : Store) (a : Nat) (v : String) (rest : List (Nat × String)) (buf bs : List Nat)
    (hst : store req.scan_id = some ((a, v) :: rest))
    (hbuf : readBuf gw a (filter_read_size req v) (v.length / 2) = some buf)
    (hdt : req.data_type ≠ "regex") (hm : req.filter_method ≠ "exact")
    (hv : hexDecode v = some bs)
    (hcmp : filter_compare req.data_type req.filter_method bs buf = .panicked) :
    memory_filter e gw (some p) req store = .panicked := by
  rw [memory_filter_eq e gw p req store _ hst]
  rw [run_candidates_cons_panicked _ a v rest
    (by rw [filter_candidate_relational e gw req a v buf bs hbuf hdt hm hv, hcmp])]

theorem buf_of_ok (gw : Gateway) (a : Nat) (req : FilterRequest) (v : String)
    (hok : gw.ok a req.pattern.length = true) :
    readBuf gw a (filter_read_size req v) (v.length / 2) =
      some ((List.range (v.length / 2)).map
        (fun i => if i < req.pattern.length then gw.mem (a + i) % 256 else 0)) := by
  unfold readBuf filter_read_size
  rw [if_pos hok]

/-- Claim C10 (amended): for the integer data types the relational filter
converts old and new values through `try_into().unwrap()`, which panics
whenever the stored value's decoded byte length differs from the type's
width; for `float`/`double` the `byteorder` read panics only when the
decoded value is shorter than 4/8 bytes. -/
theorem C10_width_panic :
    (∀ (e : RegexEngine) (gw : Gateway) (p : Int) (req : FilterRequest) (store : Store)
        (a : Nat) (v : String) (rest : List (Nat × String)) (bs : List Nat) (w : Nat)
        (sg : Bool),
      intWidth req.data_type = some (w, sg) →
      req.filter_method ≠ "exact" →
      store req.scan_id = some ((a, v) :: rest) →
      gw.ok a req.pattern.length = true →
      hexDecode v = some bs →
      bs.length ≠ w →
      memory_filter e gw (some p) req store = .panicked) ∧
    (∀ (e : RegexEngine) (gw : Gateway) (p : Int) (req : FilterRequest) (store : Store)
        (a : Nat) (v : String) (rest : List (Nat × String)) (bs : List Nat),
      req.data_type = "float" →
      req.filter_method ≠ "exact" →
      store req.scan_id = some ((a, v) :: rest) →
      gw.ok a req.pattern.length = true →
      hexDecode v = some bs →
      bs.length < 4 →
      memory_filter e gw (some p) req store = .panicked) ∧
    (∀ (e : RegexEngine) (gw : Gateway) (p : Int) (req : FilterRequest) (store : Store)
        (a : Nat) (v : String) (rest : List (Nat × String)) (bs : List Nat),
      req.data_type = "double" →
      req.filter_method ≠ "exact" →
      store req.scan_id = some ((a, v) :: rest) →
      gw.ok a req.pattern.length = true →
      hexDecode v = some bs →
      bs.length < 8 →
      memory_filter e gw (some p) req store = .panicked) := by
  refine ⟨?_, ?_, ?_⟩
  · intro e gw p req store a v rest bs w sg hw hm hst hok hv hlen
    have hdt : req.data_type ≠ "regex" := intWidth_ne_regex _ _ _ hw
    have hcmp : filter_compare req.data_type req.filter_method bs
        ((List.range (v.length / 2)).map
          (fun i => if i < req.pattern.length then gw.mem (a + i) % 256 else 0)) =
        .panicked := by
      unfold filter_compare
      rw [hw]
      dsimp only
      rw [if_neg (by
        intro hc
        exact hlen hc.1)]
    exact filter_panic_first e gw p req store a v rest _ bs hst (buf_of_ok gw a req v hok)
      hdt hm hv hcmp
  · intro e gw p req store a v rest bs hf hm hst hok hv hlen
    have hdt : req.data_type ≠ "regex" := by rw [hf]; decide
    have hcmp : filter_compare req.data_type req.filter_method bs
        ((List.range (v.length / 2)).map
          (fun i => if i < req.pattern.length then gw.mem (a + i) % 256 else 0)) =
        .panicked := by
      unfold filter_compare
      rw [hf]
      rw [show intWidth "float" = none from rfl]
      dsimp only
      unfold filter_compare_rest
      rw [if_pos (rfl : ("float" : String) = "float")]
      rw [if_neg (fun hc => absurd hc.1 (by omega))]
    exact filter_panic_first e gw p req store a v rest _ bs hst (buf_of_ok gw a req v hok)
      hdt hm hv hcmp
  · intro e gw p req store a v rest bs hf hm hst hok hv hlen
    have hdt : req.data_type ≠ "regex" := by rw [hf]; decide
    have hcmp : filter_compare req.data_type req.filter_method bs
        ((List.range (v.length / 2)).map
          (fun i => if i < req.pattern.length then gw.mem (a + i) % 256 else 0)) =
        .panicked := by
      unfold filter_compare
      rw [hf]
      rw [show intWidth "double" = none from rfl]
      dsimp only
      unfold filter_compare_rest
      rw [if_neg (show ¬("double" : String) = "float" by decide)]
      rw [if_pos (rfl : ("double" : String) = "double")]
      rw [if_neg (fun hc => absurd hc.1 (by omega))]
    exact filter_panic_first e gw p req store a v rest _ bs hst (buf_of_ok gw a req v hok)
      hdt hm hv hcmp

theorem C10_width_panic_witness :
    memory_filter unitEngine zeroGw (some 1) int32ChangedReq
      (Store.set emptyStore "s" [(0, "00")]) = .panicked ∧
    memory_filter unitEngine zeroGw (some 1) floatChangedReq
      (Store.set emptyStore "s" [(0, "00")]) = .panicked ∧
    memory_filter unitEngine zeroGw (some 1) doubleChangedReq
      (Store.set emptyStore "s" [(0, "00")]) = .panicked :=
  ⟨C10_width_panic.1 unitEngine zeroGw 1 int32ChangedReq _ 0 "00" [] [0] 4 true rfl
      (by decide) rfl rfl rfl (by decide),
    C10_width_panic.2.1 unitEngine zeroGw 1 floatChangedReq _ 0 "00" [] [0] rfl
      (by decide) rfl rfl rfl (by decide),
    C10_width_panic.2.2 unitEngine zeroGw 1 doubleChangedReq _ 0 "00" [] [0] rfl
      (by decide) rfl rfl rfl (by decide)⟩

/-- Claim C10, counterexample to the claim as stated: a stored value that
decodes to 6 bytes filtered as `float` (width 4) does not panic — the code
compares the leading 4 bytes and drops or keeps the candidate normally, so
"any stored match whose hex value decodes to a different number of bytes
than the declared numeric width panics" is false for float/double. -/
theorem C10_float_long_no_panic :
    (memory_filter unitEngine zeroGw (some 1) floatChangedReq c10CeStore).isPanicked = false ∧
    (memory_filter unitEngine zeroGw (some 1) floatChangedReq c10CeStore).retainedOf =
      some [] :=
  ⟨rfl, rfl⟩

theorem run_candidates_replicate (f : Nat → String → CandOut) (a : Nat) (v : String)
    (h : f a v = .keep a v) :
    ∀ n, run_candidates f (List.replicate n (a, v)) = .kept (List.replicate n (a, v)) := by
  intro n
  induction n with
  | zero => rfl
  | succ n ih =>
    rw [List.replicate_succ]
    show run_candidates f ((a, v) :: List.replicate n (a, v)) = _
    unfold run_candidates
    rw [h, ih]

/-- Claim C2: the filter's JSON response is not capped.  For a filter that
retains 100001 matches, `found` is the true count and `is_rounded` is true,
but `matched_addresses` is serialised from the whole `new_positions` vector
(api.rs line 727), so the response carries all 100001 entries — more than
the 100,000 cap the claim states. -/
theorem C2_filter_json_uncapped :
    ∃ st, memory_filter unitEngine zeroGw (some 1) aobUnchangedJsonReq c2Store =
        .success st (List.replicate 100001 (0, "00"))
          (.jsonBody (List.replicate 100001 (0, "00")) 100001 true) ∧
      100000 < (List.replicate 100001 ((0 : Nat), "00")).length := by
  refine ⟨Store.set c2Store "s" (List.replicate 100001 (0, "00")), ?_, ?_⟩
  · rw [memory_filter_eq unitEngine zeroGw 1 aobUnchangedJsonReq c2Store
      (List.replicate 100001 (0, "00")) (by rfl)]
    rw [run_candidates_replicate
      (fun a v => filter_candidate unitEngine zeroGw aobUnchangedJsonReq a v) 0 "00" rfl 100001]
    show FilterOutcome.success _ _ _ = _
    have hresp : filter_response aobUnchangedJsonReq (List.replicate 100001 (0, "00")) =
        .jsonBody (List.replicate 100001 (0, "00")) 100001 true := by
      unfold filter_response
      rw [if_pos (show aobUnchangedJsonReq.return_as_json = true from rfl)]
      dsimp only
      rw [List.take_replicate, List.length_replicate, List.length_replicate]
      rw [show min MAX_RESULTS 100001 = 100000 from by decide]
      rw [show (decide ((100000 : Nat) ≠ 100001)) = true from by decide]
    rw [hresp]
    rfl
  · rw [List.length_replicate]
    norm_num

theorem chunk_scan_invalid_hex (e : RegexEngine) (gw : Gateway) (req : ScanRequest)
    (cs len : Nat) (hf : req.find_type = "exact") (hdt : req.data_type ≠ "regex")
    (hp : hexDecode req.pattern = none) :
    chunk_scan e gw req cs len = .matched [] := by
  unfold chunk_scan
  cases hrb : readBuf gw cs len len with
  | none => rfl
  | some buffer =>
    dsimp only
    rw [if_pos hf, if_neg hdt, hp]

theorem chunk_scan_invalid_regex (e : RegexEngine) (gw : Gateway) (req : ScanRequest)
    (cs len : Nat) (hf : req.find_type = "exact") (hdt : req.data_type = "regex")
    (hp : e.compile req.pattern = none) :
    chunk_scan e gw req cs len = .matched [] := by
  unfold chunk_scan
  cases hrb : readBuf gw cs len len with
  | none => rfl
  | some buffer =>
    dsimp only
    rw [if_pos hf, if_pos hdt, hp]

theorem scan_range_empty (e : RegexEngine) (gw : Gateway) (req : ScanRequest)
    (hchunk : ∀ cs len, chunk_scan e gw req cs len = .matched []) (r : Nat × Nat)
    (hr : r.1 ≤ r.2) (acc : ScanAcc) :
    ∃ locals2, scan_range e gw req (some acc) r =
      some { store := acc.store, locals := acc.locals ++ locals2, found := acc.found } ∧
      locals2.flatten = ([] : List (Nat × String)) := by
  simp only [scan_range]
  rw [if_neg (by omega)]
  generalize range_chunks r.1 r.2 = chunks
  induction chunks generalizing acc with
  | nil =>
    refine ⟨[], ?_, rfl⟩
    simp
  | cons c rest ih =>
    rw [List.foldl_cons]
    have hstep : chunk_step e gw req (some acc) c =
        some { store := acc.store, locals := acc.locals ++ [[]], found := acc.found } := by
      simp only [chunk_step]
      rw [hchunk c.1 c.2]
      simp only [spill_step]
      rw [if_neg (by simp [MAX_RESULTS])]
      simp
    rw [hstep]
    obtain ⟨locals2, heq, hflat⟩ :=
      ih { store := acc.store, locals := acc.locals ++ [[]], found := acc.found }
    refine ⟨[[]] ++ locals2, ?_, by simp [hflat]⟩
    rw [heq]
    simp

theorem scan_all_empty (e : RegexEngine) (gw : Gateway) (req : ScanRequest) (store1 : Store)
    (hchunk : ∀ cs len, chunk_scan e gw req cs len = .matched [])
    (hranges : ∀ r ∈ req.address_ranges, r.1 ≤ r.2) :
    ∃ locals, scan_all e gw req store1 =
      some { store := store1, locals := locals, found := 0 } ∧
      locals.flatten = ([] : List (Nat × String)) := by
  unfold scan_all
  have main : ∀ (l : List (Nat × Nat)) (acc : ScanAcc), (∀ r ∈ l, r.1 ≤ r.2) →
      ∃ locals2, l.foldl (scan_range e gw req) (some acc) =
        some { store := acc.store, locals := acc.locals ++ locals2, found := acc.found } ∧
        locals2.flatten = ([] : List (Nat × String)) := by
    intro l
    induction l with
    | nil =>
      intro acc _
      refine ⟨[], ?_, rfl⟩
      simp
    | cons r rest ih =>
      intro acc hl
      rw [List.foldl_cons]
      obtain ⟨l1, he1, hf1⟩ := scan_range_empty e gw req hchunk r (hl r (by simp)) acc
      rw [he1]
      obtain ⟨l2, he2, hf2⟩ := ih (⟨acc.store, acc.locals ++ l1, acc.found⟩ : ScanAcc)
        (fun x hx => hl x (by simp [hx]))
      rw [he2]
      refine ⟨l1 ++ l2, ?_, by simp [hf1, hf2]⟩
      simp
  obtain ⟨locals2, heq, hflat⟩ :=
    main req.address_ranges { store := store1, locals := [], found := 0 } hranges
  refine ⟨locals2, ?_, hflat⟩
  rw [heq]
  simp

theorem clear_append_nil (store0 : Store) (sid : String) :
    ((store0.clearAt sid).appendAt sid []) sid = some [] := by
  cases h : store0 sid with
  | none =>
    have h1 : store0.clearAt sid = store0 := by
      unfold Store.clearAt
      rw [h]
    rw [h1]
    unfold Store.appendAt
    rw [h]
    simp [Store.set]
  | some ps =>
    have h1 : store0.clearAt sid = store0.set sid [] := by
      unfold Store.clearAt
      rw [h]
    rw [h1]
    have h2 : (store0.set sid []) sid = some [] := by simp [Store.set]
    unfold Store.appendAt
    rw [h2]
    simp [Store.set]

theorem filter_candidate_exact_invalid (e : RegexEngine) (gw : Gateway) (req : FilterRequest)
    (a : Nat) (v : String) (hok : gw.ok a req.pattern.length = true)
    (hdt : req.data_type ≠ "regex") (hm : req.filter_method = "exact")
    (hp : hexDecode req.pattern = none) :
    filter_candidate e gw req a v = .invalidHexResp := by
  unfold filter_candidate
  rw [buf_of_ok gw a req v hok]
  dsimp only
  rw [if_neg hdt, if_pos hm, hp]

theorem filter_candidate_regex_none (e : RegexEngine) (gw : Gateway) (req : FilterRequest)
    (a : Nat) (v : String) (hdt : req.data_type = "regex")
    (hp : e.compile req.pattern = none) :
    filter_candidate e gw req a v = .drop := by
  unfold filter_candidate
  cases hrb : readBuf gw a (filter_read_size req v) (v.length / 2) with
  | none => rfl
  | some buf =>
    dsimp only
    rw [if_pos hdt, hp]

theorem run_candidates_all_drop (f : Nat → String → CandOut) :
    ∀ ps : List (Nat × String), (∀ q ∈ ps, f q.1 q.2 = .drop) →
      run_candidates f ps = .kept [] := by
  intro ps
  induction ps with
  | nil => intro _; rfl
  | cons q rest ih =>
    intro h
    obtain ⟨a, v⟩ := q
    unfold run_candidates
    rw [h (a, v) (by simp)]
    exact ih (fun x hx => h x (by simp [hx]))

/-- Claim C4 (amended): invalid patterns are absorbed per chunk during a
scan (both hex-decode and regex-compile failures leave the request
successful with zero stored matches); during a filter the asymmetry holds
only for the hex side: an undecodable hex pattern in an exact-method filter
is surfaced as a client error once a candidate's read succeeds, while a
regex pattern that fails to compile is absorbed per candidate exactly like
the scan path — every candidate is dropped and the request succeeds. -/
theorem C4_invalid_pattern_asymmetry :
    (∀ (e : RegexEngine) (gw : Gateway) (p : Int) (req : ScanRequest) (store0 : Store),
      req.find_type = "exact" → req.data_type ≠ "regex" →
      hexDecode req.pattern = none → (∀ r ∈ req.address_ranges, r.1 ≤ r.2) →
      ∃ st resp, memory_scan e gw (some p) req store0 = .success st 0 resp ∧
        st req.scan_id = some []) ∧
    (∀ (e : RegexEngine) (gw : Gateway) (p : Int) (req : ScanRequest) (store0 : Store),
      req.find_type = "exact" → req.data_type = "regex" →
      e.compile req.pattern = none → (∀ r ∈ req.address_ranges, r.1 ≤ r.2) →
      ∃ st resp, memory_scan e gw (some p) req store0 = .success st 0 resp ∧
        st req.scan_id = some []) ∧
    (∀ (e : RegexEngine) (gw : Gateway) (p : Int) (req : FilterRequest) (store0 : Store)
        (a : Nat) (v : String) (rest : List (Nat × String)),
      req.data_type ≠ "regex" → req.filter_method = "exact" →
      hexDecode req.pattern = none → store0 req.scan_id = some ((a, v) :: rest) →
      gw.ok a req.pattern.length = true →
      memory_filter e gw (some p) req store0 = .invalidHexResp) ∧
    (∀ (e : RegexEngine) (gw : Gateway) (p : Int) (req : FilterRequest) (store0 : Store)
        (ps : List (Nat × String)),
      req.data_type = "regex" → e.compile req.pattern = none →
      store0 req.scan_id = some ps →
      ∃ st, memory_filter e gw (some p) req store0 =
        .success st [] (filter_response req [])) := by
  refine ⟨?_, ?_, ?_, ?_⟩
  · intro e gw p req store0 hf hdt hp hranges
    obtain ⟨locals, heq, hflat⟩ := scan_all_empty e gw req (store0.clearAt req.scan_id)
      (fun cs len => chunk_scan_invalid_hex e gw req cs len hf hdt hp) hranges
    simp only [memory_scan]
    rw [heq]
    dsimp only
    rw [hflat]
    exact ⟨_, _, rfl, clear_append_nil store0 req.scan_id⟩
  · intro e gw p req store0 hf hdt hp hranges
    obtain ⟨locals, heq, hflat⟩ := scan_all_empty e gw req (store0.clearAt req.scan_id)
      (fun cs len => chunk_scan_invalid_regex e gw req cs len hf hdt hp) hranges
    simp only [memory_scan]
    rw [heq]
    dsimp only
    rw [hflat]
    exact ⟨_, _, rfl, clear_append_nil store0 req.scan_id⟩
  · intro e gw p req store0 a v rest hdt hm hp hst hok
    rw [memory_filter_eq e gw p req store0 _ hst]
    rw [run_candidates_cons_invalid _ a v rest
      (filter_candidate_exact_invalid e gw req a v hok hdt hm hp)]
  · intro e gw p req store0 ps hdt hp hst
    rw [memory_filter_eq e gw p req store0 _ hst]
    rw [run_candidates_all_drop _ ps
      (fun q _ => filter_candidate_regex_none e gw req q.1 q.2 hdt hp)]
    exact ⟨_, rfl⟩

/-- Claim C4, counterexample to the claim as stated: a filter whose regex
pattern fails to compile is NOT surfaced as a client error — the request
succeeds with every candidate silently dropped. -/
theorem C4_regex_filter_absorbed :
    (memory_filter unitEngine zeroGw (some 1) regexFilterReq c4Store).isBadRequest = false ∧
    (memory_filter unitEngine zeroGw (some 1) regexFilterReq c4Store).retainedOf = some [] :=
  ⟨rfl, rfl⟩

theorem C4_invalid_pattern_asymmetry_witness :
    (∃ st resp, memory_scan unitEngine zeroGw (some 1) c4aReq emptyStore =
        .success st 0 resp ∧ st "s4" = some []) ∧
    (∃ st resp, memory_scan unitEngine zeroGw (some 1) c4bReq emptyStore =
        .success st 0 resp ∧ st "s4" = some []) ∧
    memory_filter unitEngine zeroGw (some 1) c4cReq c4Store = .invalidHexResp ∧
    (∃ st, memory_filter unitEngine zeroGw (some 1) regexFilterReq c4Store =
      .success st [] (filter_response regexFilterReq [])) :=
  ⟨C4_invalid_pattern_asymmetry.1 unitEngine zeroGw 1 c4aReq emptyStore rfl (by decide)
      rfl (by decide),
    C4_invalid_pattern_asymmetry.2.1 unitEngine zeroGw 1 c4bReq emptyStore rfl rfl rfl
      (by decide),
    C4_invalid_pattern_asymmetry.2.2.1 unitEngine zeroGw 1 c4cReq c4Store 0 "00" []
      (by decide) rfl rfl rfl rfl,
    C4_invalid_pattern_asymmetry.2.2.2 unitEngine zeroGw 1 regexFilterReq c4Store
      [(0, "00")] rfl rfl rfl⟩

theorem u32le_mod (n : Nat) : u32le (n % 4294967296) = u32le n := by
  unfold u32le
  have h1 : n % 4294967296 % 256 = n % 256 := by omega
  have h2 : n % 4294967296 / 256 % 256 = n / 256 % 256 := by omega
  have h3 : n % 4294967296 / 65536 % 256 = n / 65536 % 256 := by omega
  have h4 : n % 4294967296 / 16777216 % 256 = n / 16777216 % 256 := by omega
  rw [h1, h2, h3, h4]

theorem foldl_append_eq_flatten (l : List (List Nat)) :
    ∀ init, l.foldl (fun acc b => acc ++ b) init = init ++ l.flatten := by
  induction l with
  | nil => intro init; simp
  | cons x rest ih =>
    intro init
    rw [List.foldl_cons, ih]
    simp

/-- Claim C7: the batch-read encoder emits, in request order with no
separators, flag 1 + little-endian compressed length + payload for each
successful read and flag 0 alone for each failed one: the encoder equals the
record format written from the spec, for every gateway and block
compressor. -/
theorem C7_batch_codec_format (gw : Gateway) (compress : List Nat → List Nat)
    (requests : List (Nat × Nat)) :
    read_memory_multiple gw compress requests = batch_format gw compress requests := by
  unfold read_memory_multiple batch_format
  rw [foldl_append_eq_flatten, List.nil_append]
  congr 1
  apply List.map_congr_left
  intro rq _
  unfold batch_record_format
  cases h : readBuf gw rq.1 rq.2 rq.2 with
  | none => rfl
  | some buffer =>
    dsimp only
    rw [u32le_mod]

theorem appendAt_getD (st : Store) (sid : String) (v : List (Nat × String)) :
    ((st.appendAt sid v) sid).getD [] = ((st sid).getD []) ++ v := by
  unfold Store.appendAt
  cases h : st sid with
  | none => simp [Store.set, h]
  | some ps => simp [Store.set, h]

theorem appendAt_some (st : Store) (sid : String) (v : List (Nat × String)) :
    ∃ L, (st.appendAt sid v) sid = some L ∧ L.length = sidLen st sid + v.length := by
  unfold Store.appendAt
  cases h : st sid with
  | none => exact ⟨v, by simp [Store.set], by simp [sidLen, h]⟩
  | some ps => exact ⟨ps ++ v, by simp [Store.set], by simp [sidLen, h]⟩

theorem spill_step_inv (sid : String) (B : Nat) (acc : ScanAcc) (ms : List (Nat × String))
    (h : scanInv sid B acc) : scanInv sid B (spill_step sid acc ms) := by
  unfold spill_step
  unfold scanInv at h ⊢
  split
  · have ha : sidLen (acc.store.appendAt sid ms) sid = sidLen acc.store sid + ms.length := by
      unfold sidLen
      rw [appendAt_getD]
      simp
    simp only [ha, List.flatten_append, List.flatten_cons, List.flatten_nil,
      List.append_nil, List.length_append]
    omega
  · simp only [List.flatten_append, List.flatten_cons, List.flatten_nil,
      List.append_nil, List.length_append]
    omega

theorem foldl_chunk_step_none (e : RegexEngine) (gw : Gateway) (req : ScanRequest)
    (chunks : List (Nat × Nat)) : chunks.foldl (chunk_step e gw req) none = none := by
  induction chunks with
  | nil => rfl
  | cons c rest ih =>
    rw [List.foldl_cons]
    exact ih

theorem chunk_step_some (e : RegexEngine) (gw : Gateway) (req : ScanRequest)
    (acc : ScanAcc) (c : Nat × Nat) (acc1 : ScanAcc)
    (h : chunk_step e gw req (some acc) c = some acc1) :
    ∃ ms, chunk_scan e gw req c.1 c.2 = .matched ms ∧
      acc1 = spill_step req.scan_id acc ms := by
  unfold chunk_step at h
  cases hcs : chunk_scan e gw req c.1 c.2 with
  | panicked => rw [hcs] at h; simp at h
  | matched ms =>
    rw [hcs] at h
    simp only [Option.some.injEq] at h
    exact ⟨ms, rfl, h.symm⟩

/-- Any property preserved by the spill step over scanned chunks is an
invariant of the chunk fold. -/
theorem chunk_fold_pres (e : RegexEngine) (gw : Gateway) (req : ScanRequest)
    (P : ScanAcc → Prop)
    (hP : ∀ (acc : ScanAcc) (c : Nat × Nat) (ms : List (Nat × String)),
      chunk_scan e gw req c.1 c.2 = .matched ms → P acc →
      P (spill_step req.scan_id acc ms)) :
    ∀ (chunks : List (Nat × Nat)) (acc acc2 : ScanAcc), P acc →
      chunks.foldl (chunk_step e gw req) (some acc) = some acc2 → P acc2 := by
  intro chunks
  induction chunks with
  | nil =>
    intro acc acc2 hp h
    simp only [List.foldl_nil, Option.some.injEq] at h
    rw [← h]
    exact hp
  | cons c rest ih =>
    intro acc acc2 hp h
    rw [List.foldl_cons] at h
    cases hs : chunk_step e gw req (some acc) c with
    | none =>
      rw [hs, foldl_chunk_step_none] at h
      simp at h
    | some acc1 =>
      rw [hs] at h
      obtain ⟨ms, hcs, rfl⟩ := chunk_step_some e gw req acc c acc1 hs
      exact ih _ _ (hP acc c ms hcs hp) h

/-- The same, lifted to the range fold. -/
theorem ranges_fold_pres (e : RegexEngine) (gw : Gateway) (req : ScanRequest)
    (P : ScanAcc → Prop)
    (hP : ∀ (acc : ScanAcc) (c : Nat × Nat) (ms : List (Nat × String)),
      chunk_scan e gw req c.1 c.2 = .matched ms → P acc →
      P (spill_step req.scan_id acc ms)) :
    ∀ (l : List (Nat × Nat)) (acc acc2 : ScanAcc), P acc →
      l.foldl (scan_range e gw req) (some acc) = some acc2 → P acc2 := by
  intro l
  induction l with
  | nil =>
    intro acc acc2 hp h
    simp only [List.foldl_nil, Option.some.injEq] at h
    rw [← h]
    exact hp
  | cons r rest ih =>
    intro acc acc2 hp h
    rw [List.foldl_cons] at h
    cases hs : scan_range e gw req (some acc) r with
    | none =>
      rw [hs, foldl_scan_range_none] at h
      simp at h
    | some acc1 =>
      rw [hs] at h
      simp only [scan_range] at hs
      split at hs
      · simp at hs
      · exact ih _ _ (chunk_fold_pres e gw req P hP _ acc acc1 hp hs) h

theorem clearAt_sidLen (store0 : Store) (sid : String) :
    sidLen (store0.clearAt sid) sid = 0 := by
  unfold Store.clearAt sidLen
  cases h : store0 sid with
  | none => simp [h]
  | some ps => simp [Store.set]

/-- Claim C5: when a scan (on an empty or cleared scan id) completes, the
number of matches stored under the scan id equals the reported found count
— in particular across the mid-scan spill boundary whenever some chunk
exceeds MAX_RESULTS local matches, none are lost or duplicated by the spill
plus the final flatten-and-append. -/
theorem C5_spill_preserves_count (e : RegexEngine) (gw : Gateway) (p : Int)
    (req : ScanRequest) (store0 : Store) (st : Store) (f : Nat) (resp : ScanResponse)
    (hstore : store0 req.scan_id = none ∨ store0 req.scan_id = some [])
    (hbig : ∃ r ∈ req.address_ranges, ∃ c ∈ range_chunks r.1 r.2, ∃ ms,
      chunk_scan e gw req c.1 c.2 = .matched ms ∧ MAX_RESULTS < ms.length)
    (hal : 0 < req.align)
    (hrun : memory_scan e gw (some p) req store0 = .success st f resp) :
    ∃ L, st req.scan_id = some L ∧ L.length = f := by
  cases hall : scan_all e gw req (store0.clearAt req.scan_id) with
  | none =>
    simp only [memory_scan, hall] at hrun
    exact ScanOutcome.noConfusion hrun
  | some acc =>
    simp only [memory_scan, hall] at hrun
    have hinv : scanInv req.scan_id 0 acc := by
      apply ranges_fold_pres e gw req (scanInv req.scan_id 0)
        (fun acc c ms _ hp => spill_step_inv req.scan_id 0 acc ms hp)
        req.address_ranges { store := store0.clearAt req.scan_id, locals := [], found := 0 }
        acc
      · unfold scanInv
        dsimp only
        rw [clearAt_sidLen]
        simp
      · exact hall
    rw [ScanOutcome.success.injEq] at hrun
    obtain ⟨hst, hf, _⟩ := hrun
    obtain ⟨L, hL, hlen⟩ := appendAt_some acc.store req.scan_id acc.locals.flatten
    refine ⟨L, ?_, ?_⟩
    · rw [← hst]
      exact hL
    · unfold scanInv at hinv
      omega

/-- Symbolic evaluation of a one-range one-chunk scan whose chunk overflows
the spill bound: the matches are flushed into the store mid-scan and the
final append adds the emptied local buffer. -/
theorem memory_scan_single_spill (e : RegexEngine) (gw : Gateway) (p : Int)
    (req : ScanRequest) (store0 : Store) (s len : Nat) (ms : List (Nat × String))
    (hranges : req.address_ranges = [(s, s + len)])
    (h0 : 0 < len) (hcs : len ≤ chunkSize)
    (hchunk : chunk_scan e gw req s len = .matched ms)
    (hbig : ms.length > MAX_RESULTS) :
    ∃ resp, memory_scan e gw (some p) req store0 =
      .success
        (((store0.clearAt req.scan_id).appendAt req.scan_id ms).appendAt req.scan_id [])
        ms.length resp := by
  have hchunks : range_chunks s (s + len) = [(s, len)] := range_chunks_single s len h0 hcs
  have hall : scan_all e gw req (store0.clearAt req.scan_id) =
      some { store := (store0.clearAt req.scan_id).appendAt req.scan_id ms,
             locals := [] ++ [[]], found := 0 + ms.length } := by
    unfold scan_all
    rw [hranges, List.foldl_cons, List.foldl_nil]
    simp only [scan_range]
    rw [if_neg (by omega)]
    rw [hchunks, List.foldl_cons, List.foldl_nil]
    simp only [chunk_step]
    rw [hchunk]
    simp only [spill_step]
    rw [if_pos hbig]
  refine ⟨scan_response
    (((store0.clearAt req.scan_id).appendAt req.scan_id ms).appendAt req.scan_id [])
    req.scan_id ms.length req.return_as_json, ?_⟩
  simp only [memory_scan]
  rw [hall]
  dsimp only
  rw [show (([] ++ [[]] : List (List (Nat × String)))).flatten = [] from by simp]
  rw [Nat.zero_add]

theorem literal_fold_length_one (cs : Nat) (pattern : String) :
    ∀ (poss : List Nat) (st : Nat × List (Nat × String)),
      ((poss.foldl (literal_step cs 1 pattern) st).2).length = st.2.length + poss.length := by
  intro poss
  induction poss with
  | nil =>
    intro st
    simp
  | cons pos rest ih =>
    intro st
    rw [List.foldl_cons, ih]
    simp only [literal_step]
    rw [if_pos (Nat.mod_one _)]
    simp
    omega

theorem literal_scan_length_one (cs : Nat) (poss : List Nat) (pattern : String) :
    (literal_scan cs 1 poss pattern).length = poss.length := by
  unfold literal_scan
  rw [literal_fold_length_one]
  simp

theorem c5_read : readBuf zeroGw 0 131072 131072 =
    some ((List.range 131072).map (fun k => c5g (0 + k))) := by
  unfold readBuf
  rw [if_pos (show zeroGw.ok 0 131072 = true from rfl)]
  refine congrArg some (List.map_congr_left ?_)
  intro i hi
  simp only [List.mem_range] at hi
  simp [c5g, hi, zeroGw]

theorem c5_find : find_iter ((List.range 131072).map (fun k => c5g (0 + k))) [0] =
    (List.range 131072).map (fun k => 0 + k) := by
  unfold find_iter
  rw [if_neg (by simp)]
  have hlen : ((List.range 131072).map (fun k => c5g (0 + k))).length = 131072 := by simp
  rw [hlen, findIterGo_byte c5g 0 131072 0 0]
  refine congrArg (List.map (fun k => 0 + k)) ?_
  rw [List.filter_congr
    (fun k _ => show decide (c5g (0 + k) = 0) = (fun _ => true) k from by simp [c5g])]
  rw [List.filter_true]

theorem c5_chunk : chunk_scan unitEngine zeroGw c5Req 0 131072 = .matched c5Matches := by
  unfold chunk_scan
  rw [c5_read]
  show (if c5Req.find_type = "exact" then _ else _) = _
  rw [if_pos (show c5Req.find_type = "exact" from rfl)]
  rw [if_neg (show ¬c5Req.data_type = "regex" by decide)]
  rw [show hexDecode c5Req.pattern = some [0] from by rfl]
  show ChunkOut.matched (literal_scan 0 c5Req.align
    (find_iter ((List.range 131072).map (fun k => c5g (0 + k))) [0]) c5Req.pattern) = _
  rw [c5_find]
  rfl

theorem c5_len : c5Matches.length = 131072 := by
  unfold c5Matches
  rw [literal_scan_length_one, List.length_map, List.length_range]

theorem C5_spill_preserves_count_witness :
    ∃ L, ((((emptyStore.clearAt "s5").appendAt "s5" c5Matches).appendAt "s5" []) "s5" =
      some L) ∧ L.length = c5Matches.length := by
  obtain ⟨resp, hrun⟩ := memory_scan_single_spill unitEngine zeroGw 1 c5Req emptyStore 0
    131072 c5Matches rfl (by norm_num) (by unfold chunkSize; norm_num) c5_chunk
    (by rw [c5_len]; simp [MAX_RESULTS])
  exact C5_spill_preserves_count unitEngine zeroGw 1 c5Req emptyStore _ _ _ (Or.inl rfl)
    ⟨(0, 131072), by rw [show c5Req.address_ranges = [(0, 131072)] from rfl]; simp,
      (0, 131072), by rw [show range_chunks 0 131072 = [(0, 131072)] from rfl]; simp,
      c5Matches, c5_chunk, by rw [c5_len]; simp [MAX_RESULTS]⟩
    (by decide) hrun

theorem literal_fold_aligned (cs A : Nat) (pattern : String) :
    ∀ (poss : List Nat) (st : Nat × List (Nat × String)),
      allAligned A st.2 → allAligned A ((poss.foldl (literal_step cs A pattern) st).2) := by
  intro poss
  induction poss with
  | nil =>
    intro st h
    simpa using h
  | cons pos rest ih =>
    intro st h
    rw [List.foldl_cons]
    apply ih
    dsimp only [literal_step]
    by_cases hc : (cs + st.1 + pos) % A = 0
    · rw [if_pos hc]
      intro q hq
      rcases List.mem_append.mp hq with hq1 | hq2
      · exact h q hq1
      · rcases List.mem_singleton.mp hq2 with rfl
        exact hc
    · rw [if_neg hc]
      exact h

theorem chunk_scan_literal_aligned (e : RegexEngine) (gw : Gateway) (req : ScanRequest)
    (cs len : Nat) (ms : List (Nat × String))
    (hf : req.find_type = "exact") (hdt : req.data_type ≠ "regex")
    (h : chunk_scan e gw req cs len = .matched ms) : allAligned req.align ms := by
  unfold chunk_scan at h
  cases hrb : readBuf gw cs len len with
  | none =>
    rw [hrb] at h
    dsimp only at h
    simp only [ChunkOut.matched.injEq] at h
    subst h
    intro q hq
    simp at hq
  | some buffer =>
    rw [hrb] at h
    dsimp only at h
    rw [if_pos hf, if_neg hdt] at h
    cases hx : hexDecode req.pattern with
    | none =>
      rw [hx] at h
      dsimp only at h
      simp only [ChunkOut.matched.injEq] at h
      subst h
      intro q hq
      simp at hq
    | some needle =>
      rw [hx] at h
      dsimp only at h
      simp only [ChunkOut.matched.injEq] at h
      subst h
      unfold literal_scan
      exact literal_fold_aligned cs req.align req.pattern _ (0, [])
        (by intro q hq; simp at hq)

theorem spill_step_aligned (A : Nat) (sid : String) (acc : ScanAcc)
    (ms : List (Nat × String)) (hms : allAligned A ms) (h : accAligned A sid acc) :
    accAligned A sid (spill_step sid acc ms) := by
  unfold spill_step
  split
  · refine ⟨?_, ?_⟩
    · dsimp only
      rw [appendAt_getD]
      intro q hq
      rcases List.mem_append.mp hq with h1 | h2
      · exact h.1 q h1
      · exact hms q h2
    · dsimp only
      intro l hl
      rcases List.mem_append.mp hl with h1 | h2
      · exact h.2 l h1
      · rcases List.mem_singleton.mp h2 with rfl
        intro q hq
        simp at hq
  · refine ⟨h.1, ?_⟩
    dsimp only
    intro l hl
    rcases List.mem_append.mp hl with h1 | h2
    · exact h.2 l h1
    · rcases List.mem_singleton.mp h2 with rfl
      exact hms

theorem clearAt_getD_nil (store0 : Store) (sid : String) :
    ((store0.clearAt sid) sid).getD [] = [] := by
  unfold Store.clearAt
  cases h : store0 sid with
  | none => simp [h]
  | some ps => simp [Store.set]

/-- Claim C6: for a valid hex pattern and positive alignment, every address
an Exact/literal scan stores under the scan id (including addresses that
went through the mid-scan spill) is a multiple of the alignment — the push
is guarded by `start % align == 0` and both the spill and the final append
move entries unchanged. -/
theorem C6_literal_scan_alignment (e : RegexEngine) (gw : Gateway) (pid : Option Int)
    (req : ScanRequest) (store0 : Store) (bs : List Nat)
    (hf : req.find_type = "exact") (hdt : req.data_type ≠ "regex")
    (hhex : hexDecode req.pattern = some bs) (hal : 0 < req.align) :
    ∀ q ∈ ((memory_scan e gw pid req store0).storedAt req.scan_id).getD [],
      q.1 % req.align = 0 := by
  cases pid with
  | none =>
    intro q hq
    simp [memory_scan, ScanOutcome.storedAt] at hq
  | some p =>
    cases hall : scan_all e gw req (store0.clearAt req.scan_id) with
    | none =>
      intro q hq
      simp [memory_scan, hall, ScanOutcome.storedAt] at hq
    | some acc =>
      have hinv : accAligned req.align req.scan_id acc := by
        apply ranges_fold_pres e gw req (accAligned req.align req.scan_id)
          (fun acc2 c ms hms hp => spill_step_aligned req.align req.scan_id acc2 ms
            (chunk_scan_literal_aligned e gw req c.1 c.2 ms hf hdt hms) hp)
          req.address_ranges
          { store := store0.clearAt req.scan_id, locals := [], found := 0 } acc
        · refine ⟨?_, ?_⟩
          · dsimp only
            rw [clearAt_getD_nil]
            intro q hq
            simp at hq
          · dsimp only
            intro l hl
            simp at hl
        · exact hall
      intro q hq
      simp only [memory_scan, hall, ScanOutcome.storedAt] at hq
      rw [appendAt_getD] at hq
      rcases List.mem_append.mp hq with h1 | h2
      · exact hinv.1 q h1
      · obtain ⟨l, hl, hql⟩ := List.mem_flatten.mp h2
        exact hinv.2 l hl q hql

theorem C6_literal_scan_alignment_witness :
    (0 : Nat) < c6Req.align ∧
    ∀ q ∈ ((memory_scan unitEngine c1Gw (some 1) c6Req emptyStore).storedAt "s6").getD [],
      q.1 % c6Req.align = 0 :=
  ⟨by decide, C6_literal_scan_alignment unitEngine c1Gw (some 1) c6Req emptyStore [255]
    rfl (by decide) rfl (by decide)⟩

theorem compare_values_self (x : Int) : compare_values x x "unchanged" = true := by
  rw [show compare_values x x "unchanged" = decide (x = x) from rfl]
  simp

theorem f32Eq_self (v o : Nat) (h : f32Eq v o = true) : f32Eq v v = true := by
  unfold f32Eq at h ⊢
  simp only [Bool.and_eq_true] at h
  simp [h.1]

theorem f64Eq_self (v o : Nat) (h : f64Eq v o = true) : f64Eq v v = true := by
  unfold f64Eq at h ⊢
  simp only [Bool.and_eq_true] at h
  simp [h.1]

theorem filter_compare_int_eq (dt : String) (w : Nat) (sg : Bool) (method : String)
    (old buf : List Nat) (hw : intWidth dt = some (w, sg)) :
    filter_compare dt method old buf =
      (if old.length = w ∧ buf.length = w then
        if sg = true then .val (compare_values (leToInt w buf) (leToInt w old) method)
        else .val (compare_values ((leToNat buf : Int)) ((leToNat old : Int)) method)
      else .panicked) := by
  unfold filter_compare
  rw [hw]

theorem filter_compare_none_eq (dt method : String) (old buf : List Nat)
    (hw : intWidth dt = none) :
    filter_compare dt method old buf = filter_compare_rest dt method old buf := by
  unfold filter_compare
  rw [hw]

/-- An unchanged comparison that succeeded keeps succeeding when both sides
are the freshly read bytes: integer equality is reflexive, a non-NaN float
stays equal to itself (success rules NaN out), and the text and raw
comparisons are reflexive. -/
theorem filter_compare_unchanged_idem (dt : String) (old buf : List Nat)
    (h : filter_compare dt "unchanged" old buf = .val true) :
    filter_compare dt "unchanged" buf buf = .val true := by
  cases hw : intWidth dt with
  | some pr =>
    obtain ⟨w, sg⟩ := pr
    rw [filter_compare_int_eq dt w sg _ _ _ hw] at h
    rw [filter_compare_int_eq dt w sg _ _ _ hw]
    split at h
    next hc =>
      rw [if_pos (show buf.length = w ∧ buf.length = w from ⟨hc.2, hc.2⟩)]
      cases sg with
      | false =>
        rw [if_neg (by simp)]
        rw [compare_values_self]
      | true =>
        rw [if_pos rfl]
        rw [compare_values_self]
    next hc => exact CmpOut.noConfusion h
  | none =>
    rw [filter_compare_none_eq dt _ _ _ hw] at h
    rw [filter_compare_none_eq dt _ _ _ hw]
    unfold filter_compare_rest at h ⊢
    by_cases hf : dt = "float"
    · rw [if_pos hf] at h ⊢
      split at h
      next hc =>
        rw [if_pos (show 4 ≤ buf.length ∧ 4 ≤ buf.length from ⟨hc.2, hc.2⟩)]
        rw [show compare_values_f32 (leToNat (buf.take 4)) (leToNat (old.take 4))
          "unchanged" = f32Eq (leToNat (buf.take 4)) (leToNat (old.take 4)) from rfl] at h
        simp only [CmpOut.val.injEq] at h
        rw [show compare_values_f32 (leToNat (buf.take 4)) (leToNat (buf.take 4))
          "unchanged" = f32Eq (leToNat (buf.take 4)) (leToNat (buf.take 4)) from rfl]
        rw [f32Eq_self _ _ h]
      next hc => exact CmpOut.noConfusion h
    · rw [if_neg hf] at h ⊢
      by_cases hd : dt = "double"
      · rw [if_pos hd] at h ⊢
        split at h
        next hc =>
          rw [if_pos (show 8 ≤ buf.length ∧ 8 ≤ buf.length from ⟨hc.2, hc.2⟩)]
          rw [show compare_values_f64 (leToNat (buf.take 8)) (leToNat (old.take 8))
            "unchanged" = f64Eq (leToNat (buf.take 8)) (leToNat (old.take 8)) from rfl] at h
          simp only [CmpOut.val.injEq] at h
          rw [show compare_values_f64 (leToNat (buf.take 8)) (leToNat (buf.take 8))
            "unchanged" = f64Eq (leToNat (buf.take 8)) (leToNat (buf.take 8)) from rfl]
          rw [f64Eq_self _ _ h]
        next hc => exact CmpOut.noConfusion h
      · rw [if_neg hd] at h ⊢
        by_cases hu8 : dt = "utf-8"
        · rw [if_pos hu8]
          rw [show (if ("unchanged" : String) = "changed" then
              decide (utf8OrEmpty buf ≠ utf8OrEmpty buf)
            else if ("unchanged" : String) = "unchanged" then
              decide (utf8OrEmpty buf = utf8OrEmpty buf)
            else false) = decide (utf8OrEmpty buf = utf8OrEmpty buf) from rfl]
          simp
        · rw [if_neg hu8] at h ⊢
          by_cases hu16 : dt = "utf-16"
          · rw [if_pos hu16]
            rw [show (if ("unchanged" : String) = "changed" then
                decide (toU16List buf ≠ toU16List buf)
              else if ("unchanged" : String) = "unchanged" then
                decide (toU16List buf = toU16List buf)
              else false) = decide (toU16List buf = toU16List buf) from rfl]
            simp
          · rw [if_neg hu16] at h ⊢
            by_cases haob : dt = "aob"
            · rw [if_pos haob]
              rw [show (if ("unchanged" : String) = "changed" then decide (buf ≠ buf)
                else if ("unchanged" : String) = "unchanged" then decide (buf = buf)
                else false) = decide (buf = buf) from rfl]
              simp
            · rw [if_neg haob] at h
              simp only [CmpOut.val.injEq] at h
              exact absurd h (by simp)

/-- A candidate the unchanged filter kept keeps itself on a second pass:
the stored value is now the hex of the buffer the same read reproduces. -/
theorem filter_candidate_self (e : RegexEngine) (gw : Gateway) (req : FilterRequest)
    (hm : req.filter_method = "unchanged") (a : Nat) (v : String) (a2 : Nat) (v2 : String)
    (h : filter_candidate e gw req a v = .keep a2 v2) :
    filter_candidate e gw req a2 v2 = .keep a2 v2 := by
  unfold filter_candidate at h
  cases hrb : readBuf gw a (filter_read_size req v) (v.length / 2) with
  | none =>
    rw [hrb] at h
    exact CandOut.noConfusion h
  | some buf =>
    rw [hrb] at h
    dsimp only at h
    have hlenbuf : buf.length = v.length / 2 := readBuf_length gw a _ _ buf hrb
    have hbuflt : ∀ b ∈ buf, b < 256 := readBuf_lt_256 gw a _ _ buf hrb
    have hlen2 : (hexEncode buf).length / 2 = v.length / 2 := by
      rw [hexEncode_length]
      omega
    by_cases hdt : req.data_type = "regex"
    · rw [if_pos hdt] at h
      cases hc : e.compile req.pattern with
      | none =>
        rw [hc] at h
        exact CandOut.noConfusion h
      | some re =>
        rw [hc] at h
        dsimp only at h
        split at h
        next hmatch =>
          simp only [CandOut.keep.injEq] at h
          obtain ⟨rfl, rfl⟩ := h
          unfold filter_candidate
          have hrb2 : readBuf gw a (filter_read_size req (hexEncode buf))
              ((hexEncode buf).length / 2) = some buf := by
            rw [show filter_read_size req (hexEncode buf) = filter_read_size req v from rfl]
            rw [hlen2]
            exact hrb
          rw [hrb2]
          dsimp only
          rw [if_pos hdt, hc]
          dsimp only
          rw [if_pos hmatch]
        next hmatch => exact CandOut.noConfusion h
    · rw [if_neg hdt] at h
      have hm2 : ¬req.filter_method = "exact" := by
        rw [hm]
        decide
      rw [if_neg hm2] at h
      cases hv : hexDecode v with
      | none =>
        rw [hv] at h
        exact CandOut.noConfusion h
      | some bytes =>
        rw [hv] at h
        dsimp only at h
        cases hcmp : filter_compare req.data_type req.filter_method bytes buf with
        | panicked =>
          rw [hcmp] at h
          exact CandOut.noConfusion h
        | val b =>
          rw [hcmp] at h
          cases b with
          | false => exact CandOut.noConfusion h
          | true =>
            simp only [CandOut.keep.injEq] at h
            obtain ⟨rfl, rfl⟩ := h
            unfold filter_candidate
            have hrb2 : readBuf gw a (filter_read_size req (hexEncode buf))
                ((hexEncode buf).length / 2) = some buf := by
              rw [show filter_read_size req (hexEncode buf) = filter_read_size req v
                from rfl]
              rw [hlen2]
              exact hrb
            rw [hrb2]
            dsimp only
            rw [if_neg hdt, if_neg hm2]
            rw [hexDecode_hexEncode buf hbuflt]
            dsimp only
            rw [hm] at hcmp ⊢
            rw [filter_compare_unchanged_idem req.data_type bytes buf hcmp]

theorem run_candidates_self (f : Nat → String → CandOut) :
    ∀ K : List (Nat × String), (∀ q ∈ K, f q.1 q.2 = .keep q.1 q.2) →
      run_candidates f K = .kept K := by
  intro K
  induction K with
  | nil => intro _; rfl
  | cons q rest ih =>
    intro h
    obtain ⟨a, v⟩ := q
    unfold run_candidates
    rw [h (a, v) (by simp)]
    rw [ih (fun x hx => h x (by simp [hx]))]

theorem run_candidates_mem (f : Nat → String → CandOut) :
    ∀ (ps K : List (Nat × String)), run_candidates f ps = .kept K →
      ∀ q ∈ K, ∃ p ∈ ps, f p.1 p.2 = .keep q.1 q.2 := by
  intro ps
  induction ps with
  | nil =>
    intro K h q hq
    unfold run_candidates at h
    simp only [RunOut.kept.injEq] at h
    subst h
    simp at hq
  | cons p0 rest ih =>
    intro K h q hq
    obtain ⟨a, v⟩ := p0
    unfold run_candidates at h
    cases hf : f a v with
    | keep a2 v2 =>
      rw [hf] at h
      dsimp only at h
      cases hr : run_candidates f rest with
      | kept ps2 =>
        rw [hr] at h
        simp only [RunOut.kept.injEq] at h
        subst h
        rcases List.mem_cons.mp hq with rfl | hq2
        · exact ⟨(a, v), by simp, hf⟩
        · obtain ⟨p, hp, hfp⟩ := ih ps2 hr q hq2
          exact ⟨p, by simp [hp], hfp⟩
      | invalidHexResp =>
        rw [hr] at h
        exact RunOut.noConfusion h
      | panicked =>
        rw [hr] at h
        exact RunOut.noConfusion h
    | drop =>
      rw [hf] at h
      obtain ⟨p, hp, hfp⟩ := ih K h q hq
      exact ⟨p, by simp [hp], hfp⟩
    | invalidHexResp =>
      rw [hf] at h
      exact RunOut.noConfusion h
    | panicked =>
      rw [hf] at h
      exact RunOut.noConfusion h

/-- Claim C8: against frozen memory (one fixed gateway used for both calls)
an unchanged filter is idempotent: if the first call succeeds and retains K,
the second call on the updated store retains exactly K again, storing the
same addresses and values. -/
theorem C8_filter_unchanged_idempotent (e : RegexEngine) (gw : Gateway) (pid : Option Int)
    (req : FilterRequest) (store0 st1 : Store) (K : List (Nat × String))
    (rsp1 : FilterResponse)
    (hm : req.filter_method = "unchanged")
    (h1 : memory_filter e gw pid req store0 = .success st1 K rsp1) :
    memory_filter e gw pid req st1 =
      .success (st1.set req.scan_id K) K (filter_response req K) := by
  cases pid with
  | none =>
    simp only [memory_filter] at h1
    exact FilterOutcome.noConfusion h1
  | some p =>
    cases hst : store0 req.scan_id with
    | none =>
      simp only [memory_filter] at h1
      rw [hst] at h1
      exact FilterOutcome.noConfusion h1
    | some ps =>
      rw [memory_filter_eq e gw p req store0 ps hst] at h1
      cases hr : run_candidates (fun a v => filter_candidate e gw req a v) ps with
      | invalidHexResp =>
        rw [hr] at h1
        exact FilterOutcome.noConfusion h1
      | panicked =>
        rw [hr] at h1
        exact FilterOutcome.noConfusion h1
      | kept newPositions =>
        rw [hr] at h1
        dsimp only at h1
        rw [FilterOutcome.success.injEq] at h1
        obtain ⟨hst1, hK, hrsp⟩ := h1
        subst hK
        have hself : ∀ q ∈ newPositions,
            filter_candidate e gw req q.1 q.2 = .keep q.1 q.2 := by
          intro q hq
          obtain ⟨pp, hpp, hfp⟩ := run_candidates_mem _ ps newPositions hr q hq
          exact filter_candidate_self e gw req hm pp.1 pp.2 q.1 q.2 hfp
        have hst1K : st1 req.scan_id = some newPositions := by
          rw [← hst1]
          simp [Store.set]
        rw [memory_filter_eq e gw p req st1 newPositions hst1K]
        rw [run_candidates_self _ newPositions hself]

theorem C8_filter_unchanged_idempotent_witness :
    memory_filter unitEngine zeroGw (some 1) aobUnchangedReq
      (c4Store.set "s" [(0, "00")]) =
      .success ((c4Store.set "s" [(0, "00")]).set "s" [(0, "00")]) [(0, "00")]
        (filter_response aobUnchangedReq [(0, "00")]) :=
  C8_filter_unchanged_idempotent unitEngine zeroGw (some 1) aobUnchangedReq c4Store
    (c4Store.set "s" [(0, "00")]) [(0, "00")] (.countOnly 1) rfl (by rfl)

end Feiyan
